import Mathlib

/-!
# Verification of the Sand falling-sand simulation core (ProjectSandBevy)

Shallow embedding of the grid data model, the geometry/movement primitives,
the element rule engine arms exercised by the verified claims, the particle
pool, and the tree-branch state machine, translated from
`src/ProjectSandBevy/src/`.

Modelling conventions:
* Rust `u32`/`usize` values that are only used as sizes and indices are
  modelled as `Nat`; `saturating_sub` becomes truncated `Nat` subtraction
  (which agrees with it on non-negative results).
* `f32`/`f64` probabilities are modelled as explicit numerator/denominator
  pairs (`Chance`), other real quantities as `ℚ`.  Every
  `rand::thread_rng().gen_bool(p)` consumes one draw from an explicit
  boolean oracle; a draw with `p ≥ 1` always succeeds and one with `p ≤ 0`
  always fails, matching the support of `gen_bool`.  Quantifying over all
  oracles captures every possible random outcome.
* `Vec` indexing is modelled with `List.getD`/`List.set` (out-of-range
  reads give the documented neutral value, out-of-range writes are
  dropped); in-range behaviour is identical to the source.
* The `rainbow_sand_times` map parameter of the movement primitives only
  migrates an auxiliary placement-time counter and never touches the grid
  contents, so it is omitted from the grid-level embedding.
-/

/-- The closed element enumeration from `elements/types.rs` (38 variants). -/
inductive Element where
  | Background | Wall | Sand | Water | Fire | Salt | Oil | Rock | Ice | Lava
  | Steam | SaltWater | Plant | Gunpowder | Wax | Concrete | Nitro | Napalm
  | C4 | Fuse | Acid | Cryo | Methane | Soil | WetSoil | Thermite | Spout
  | Well | Torch | Branch | Leaf | Pollen | FallingWax | ChilledIce
  | Mystery | ChargedNitro | BurningThermite | RainbowSand
  deriving DecidableEq, Repr, Fintype

/-- Source `Element::index` from `elements/types.rs`: the `#[repr(u8)]` discriminant. -/
def Element.index : Element → Nat
  | .Background => 0 | .Wall => 1 | .Sand => 2 | .Water => 3 | .Fire => 4
  | .Salt => 5 | .Oil => 6 | .Rock => 7 | .Ice => 8 | .Lava => 9
  | .Steam => 10 | .SaltWater => 11 | .Plant => 12 | .Gunpowder => 13
  | .Wax => 14 | .Concrete => 15 | .Nitro => 16 | .Napalm => 17 | .C4 => 18
  | .Fuse => 19 | .Acid => 20 | .Cryo => 21 | .Methane => 22 | .Soil => 23
  | .WetSoil => 24 | .Thermite => 25 | .Spout => 26 | .Well => 27
  | .Torch => 28 | .Branch => 29 | .Leaf => 30 | .Pollen => 31
  | .FallingWax => 32 | .ChilledIce => 33 | .Mystery => 34
  | .ChargedNitro => 35 | .BurningThermite => 36 | .RainbowSand => 37

/-- Source `Element::from_index` from `elements/types.rs` (unknown indices map to
`Background`, as in the source's catch-all arm). -/
def Element.from_index : Nat → Element
  | 0 => .Background | 1 => .Wall | 2 => .Sand | 3 => .Water | 4 => .Fire
  | 5 => .Salt | 6 => .Oil | 7 => .Rock | 8 => .Ice | 9 => .Lava
  | 10 => .Steam | 11 => .SaltWater | 12 => .Plant | 13 => .Gunpowder
  | 14 => .Wax | 15 => .Concrete | 16 => .Nitro | 17 => .Napalm | 18 => .C4
  | 19 => .Fuse | 20 => .Acid | 21 => .Cryo | 22 => .Methane | 23 => .Soil
  | 24 => .WetSoil | 25 => .Thermite | 26 => .Spout | 27 => .Well
  | 28 => .Torch | 29 => .Branch | 30 => .Leaf | 31 => .Pollen
  | 32 => .FallingWax | 33 => .ChilledIce | 34 => .Mystery
  | 35 => .ChargedNitro | 36 => .BurningThermite | 37 => .RainbowSand
  | _ => .Background

/-- Source `GameGrid` from `simulation/grid.rs`: flat cell list plus dimensions.
Index calculation: `i = y * width + x`. -/
structure GameGrid where
  elements : List Element
  width : Nat
  height : Nat
  deriving DecidableEq, Repr

namespace GameGrid

/-- Source `GameGrid::max_x` (`width.saturating_sub(1)`). -/
def max_x (g : GameGrid) : Nat := g.width - 1

/-- Source `GameGrid::max_y` (`height.saturating_sub(1)`). -/
def max_y (g : GameGrid) : Nat := g.height - 1

/-- Source `GameGrid::xy_to_index`. -/
def xy_to_index (g : GameGrid) (x y : Nat) : Nat := y * g.width + x

/-- Source `GameGrid::index_to_xy` (`x = i % width`, `y = i / width`). -/
def index_to_xy (g : GameGrid) (i : Nat) : Nat × Nat := (i % g.width, i / g.width)

/-- Source `GameGrid::get`: out-of-range coordinates read as `Background`. -/
def get (g : GameGrid) (x y : Nat) : Element :=
  if x ≥ g.width ∨ y ≥ g.height then Element.Background
  else g.elements.getD (y * g.width + x) Element.Background

/-- Source `GameGrid::set`: out-of-range coordinates are a silent no-op. -/
def set (g : GameGrid) (x y : Nat) (e : Element) : GameGrid :=
  if x ≥ g.width ∨ y ≥ g.height then g
  else { g with elements := g.elements.set (y * g.width + x) e }

/-- Source `GameGrid::get_index`: out-of-range flat index reads as `Background`. -/
def get_index (g : GameGrid) (i : Nat) : Element :=
  if i ≥ g.elements.length then Element.Background
  else g.elements.getD i Element.Background

/-- Source `GameGrid::set_index`: out-of-range flat index is a silent no-op. -/
def set_index (g : GameGrid) (i : Nat) (e : Element) : GameGrid :=
  if i ≥ g.elements.length then g
  else { g with elements := g.elements.set i e }

/-- Source `GameGrid::is_valid`. -/
def is_valid (g : GameGrid) (x y : Nat) : Prop := x < g.width ∧ y < g.height

/-- Source `GameGrid::clear` (every cell becomes `Background`). -/
def clear (g : GameGrid) : GameGrid :=
  { g with elements := g.elements.map fun _ => Element.Background }

/-- Source `GameGrid::new`. -/
def new (width height : Nat) : GameGrid :=
  { elements := List.replicate (width * height) Element.Background
    width := width, height := height }

end GameGrid

/-- Explicit random source: an oracle of boolean draws plus the index of the
next draw.  Each `gen_bool`/fair-coin call of the source consumes exactly one
draw. -/
structure RState where
  oracle : Nat → Bool
  k : Nat

/-- A probability literal `num/den`, mirroring the source's `f64` constants
(e.g. `0.95` becomes `⟨95, 100⟩`). -/
structure Chance where
  num : Nat
  den : Nat
  deriving DecidableEq, Repr

/-- One `rand::thread_rng().gen_bool(chance)` call.  Draws outside the open
interval are deterministic (`gen_bool(1.0)` is always `true`, `gen_bool(0.0)`
always `false`); otherwise the outcome is the next oracle draw. -/
def genBool (chance : Chance) (r : RState) : Bool × RState :=
  (if chance.den ≤ chance.num then true
   else if chance.num = 0 then false
   else r.oracle r.k,
   { r with k := r.k + 1 })

/-- Source `pick_rand_valid` from `simulation/physics.rs`: fair coin between two
candidate indices when both are present. -/
def pick_rand_valid (a b : Option Nat) (r : RState) : Option Nat × RState :=
  match a, b with
  | some av, some bv =>
    let (c, r') := genBool ⟨1, 2⟩ r
    (if c then some av else some bv, r')
  | some av, none => (some av, r)
  | none, some bv => (some bv, r)
  | none, none => (none, r)

/-- Source `below` from `simulation/physics.rs`. -/
def below (g : GameGrid) (y i : Nat) (target : Element) : Option Nat :=
  if y ≥ g.max_y then none
  else
    let below_idx := i + g.width
    if below_idx < g.elements.length ∧ g.get_index below_idx = target then
      some below_idx
    else none

/-- Source `below_adjacent` from `simulation/physics.rs`. -/
def below_adjacent (g : GameGrid) (x y i : Nat) (target : Element) : Option Nat :=
  if y ≥ g.max_y then none
  else
    let below_idx := i + g.width
    if below_idx < g.elements.length ∧ g.get_index below_idx = target then
      some below_idx
    else if x > 0 ∧ below_idx - 1 < g.elements.length ∧
        g.get_index (below_idx - 1) = target then
      some (below_idx - 1)
    else if x < g.max_x ∧ below_idx + 1 < g.elements.length ∧
        g.get_index (below_idx + 1) = target then
      some (below_idx + 1)
    else none

/-- Source `above` from `simulation/physics.rs`. -/
def above (g : GameGrid) (y i : Nat) (target : Element) : Option Nat :=
  if y = 0 then none
  else
    let above_idx := i - g.width
    if g.get_index above_idx = target then some above_idx else none

/-- Source `above_adjacent` from `simulation/physics.rs`. -/
def above_adjacent (g : GameGrid) (x y i : Nat) (target : Element) : Option Nat :=
  if y = 0 then none
  else
    let above_idx := i - g.width
    if g.get_index above_idx = target then some above_idx
    else if x > 0 ∧ g.get_index (above_idx - 1) = target then some (above_idx - 1)
    else if x < g.max_x ∧ above_idx + 1 < g.elements.length ∧
        g.get_index (above_idx + 1) = target then
      some (above_idx + 1)
    else none

/-- Source `adjacent` from `simulation/physics.rs`: left/right neighbour with fair
tie-breaking. -/
def adjacent (g : GameGrid) (x i : Nat) (target : Element) (r : RState) :
    Option Nat × RState :=
  let left_match := if x > 0 ∧ g.get_index (i - 1) = target then some (i - 1) else none
  let right_match := if x < g.max_x ∧ g.get_index (i + 1) = target then some (i + 1) else none
  pick_rand_valid left_match right_match r

/-- Source `bordering` from `simulation/physics.rs`: 4-neighbourhood search in the
order below, left/right, above. -/
def bordering (g : GameGrid) (x y i : Nat) (target : Element) (r : RState) :
    Option Nat × RState :=
  if y < g.max_y ∧ g.get_index (i + g.width) = target then (some (i + g.width), r)
  else
    match adjacent g x i target r with
    | (some a, r') => (some a, r')
    | (none, r') =>
      if y > 0 then
        match above g y i target with
        | some a => (some a, r')
        | none => (none, r')
      else (none, r')

/-- Source `bordering_adjacent` from `simulation/physics.rs`: 8-neighbourhood search
in the order below-adjacent, left/right, above-adjacent. -/
def bordering_adjacent (g : GameGrid) (x y i : Nat) (target : Element) (r : RState) :
    Option Nat × RState :=
  if y < g.max_y then
    match below_adjacent g x y i target with
    | some b => (some b, r)
    | none => bordering_adjacent_rest g x y i target r
  else bordering_adjacent_rest g x y i target r
where
  /-- the left/right and above-adjacent part of `bordering_adjacent`. -/
  bordering_adjacent_rest (g : GameGrid) (x y i : Nat) (target : Element)
      (r : RState) : Option Nat × RState :=
    match adjacent g x i target r with
    | (some a, r') => (some a, r')
    | (none, r') =>
      if y > 0 then
        match above_adjacent g x y i target with
        | some a => (some a, r')
        | none => (none, r')
      else (none, r')

/-- Source `do_gravity` from `simulation/physics.rs`: probabilistic straight-down
(or diagonal/sideways if `fall_adjacent`) move into `Background`; at the
bottom row the element vanishes iff `fall_into_void`. -/
def do_gravity (g : GameGrid) (x y i : Nat) (fall_adjacent : Bool) (chance : Chance)
    (fall_into_void : Bool) (r : RState) : GameGrid × Bool × RState :=
  let (c, r) := genBool chance r
  if !c then (g, false, r)
  else if y ≥ g.max_y then
    if fall_into_void then (g.set_index i Element.Background, true, r)
    else (g, false, r)
  else
    let first := if fall_adjacent then below_adjacent g x y i Element.Background
                 else below g y i Element.Background
    let (new_i, r) :=
      match first with
      | some v => (some v, r)
      | none =>
        if fall_adjacent then adjacent g x i Element.Background r else (none, r)
    match new_i with
    | some new_idx =>
      let element := g.get_index i
      ((g.set_index new_idx element).set_index i Element.Background, true, r)
    | none => (g, false, r)

/-- Source `do_density_sink` from `simulation/physics.rs`: sink through the
`lighter_than` element below, swapping it into the vacated cell. -/
def do_density_sink (g : GameGrid) (x y i : Nat) (lighter_than : Element)
    (sink_adjacent : Bool) (chance : Chance) (r : RState) : GameGrid × Bool × RState :=
  let (c, r) := genBool chance r
  if !c then (g, false, r)
  else if y ≥ g.max_y then (g, false, r)
  else
    let new_i := if sink_adjacent then below_adjacent g x y i lighter_than
                 else below g y i lighter_than
    match new_i with
    | some new_idx =>
      let current := g.get_index i
      ((g.set_index new_idx current).set_index i lighter_than, true, r)
    | none => (g, false, r)

/-- Source `do_density_liquid` from `simulation/physics.rs`: sink through the denser
`heavier_than` below, else swap with a denser same-row neighbour. -/
def do_density_liquid (g : GameGrid) (x y i : Nat) (heavier_than : Element)
    (sink_chance equalize_chance : Chance) (r : RState) : GameGrid × Bool × RState :=
  let (c1, r) := genBool sink_chance r
  let first := if c1 then below_adjacent g x y i heavier_than else none
  let (new_i, r) :=
    match first with
    | some v => (some v, r)
    | none =>
      let (c2, r) := genBool equalize_chance r
      if c2 then adjacent g x i heavier_than r else (none, r)
  match new_i with
  | some new_idx =>
    let current := g.get_index i
    ((g.set_index new_idx current).set_index i heavier_than, true, r)
  | none => (g, false, r)

/-! ## Fire rule (physics.rs, `execute_element_action`, `Element::Fire` arm)

The arm is a cascade of early returns.  It is embedded literally as a
sequence of step functions, each step falling through to the next on
failure.  For claim C3 the same logic is also expressed as a prioritized
list of *attempts* (`FireAttempt`) run by `firstSuccess`, and the cascade is
proved equal to applying the single outcome selected by that chain. -/

/-- One possible outcome of the fire rule in a tick. -/
inductive FireOutcome where
  /-- a bordering water/salt-water cell turns to steam, fire cell to background -/
  | extinguish (loc : Nat)
  /-- a neighbouring flammable cell is set on fire -/
  | ignite (loc : Nat)
  /-- a bordering wax cell ignites, possibly dripping falling wax below it -/
  | igniteWax (waxLoc : Nat) (dripLoc : Option Nat)
  /-- fire copies itself into the background cell above -/
  | rise (loc : Nat)
  /-- fire goes out -/
  | flameOut
  deriving DecidableEq, Repr

/-- Apply a single fire outcome (or none) to the grid at fire cell `i`. -/
def applyFireOutcome (g : GameGrid) (i : Nat) : Option FireOutcome → GameGrid
  | none => g
  | some (.extinguish loc) => (g.set_index loc Element.Steam).set_index i Element.Background
  | some (.ignite loc) => g.set_index loc Element.Fire
  | some (.igniteWax waxLoc dripLoc) =>
    let g1 := g.set_index waxLoc Element.Fire
    match dripLoc with
    | some d => g1.set_index d Element.FallingWax
    | none => g1
  | some (.rise loc) => g.set_index loc Element.Fire
  | some .flameOut => g.set_index i Element.Background

/-- A prioritized step of the fire rule: may select an outcome, consuming
randomness either way. -/
def FireAttempt : Type :=
  GameGrid → Nat → Nat → Nat → RState → Option FireOutcome × RState

/-- Run a prioritized list of attempts; the first success wins and no later
attempt runs. -/
def firstSuccess : List FireAttempt → GameGrid → Nat → Nat → Nat → RState →
    Option FireOutcome × RState
  | [], _, _, _, _, r => (none, r)
  | a :: rest, g, x, y, i, r =>
    match a g x y i r with
    | (some o, r') => (some o, r')
    | (none, r') => firstSuccess rest g x y i r'

/-- Run a prioritized attempt list and apply the selected outcome. -/
def runAttempts (l : List FireAttempt) (g : GameGrid) (x y i : Nat)
    (r : RState) : GameGrid × RState :=
  let (o, r') := firstSuccess l g x y i r
  (applyFireOutcome g i o, r')

/-- Fire extinguish attempt: one 80% draw guards both the water and the
salt-water `bordering` checks. -/
def attemptExtinguish : FireAttempt := fun g x y i r =>
  let (c, r) := genBool ⟨80, 100⟩ r
  if c then
    match bordering g x y i Element.Water r with
    | (some w, r) => (some (.extinguish w), r)
    | (none, r) =>
      match bordering g x y i Element.SaltWater r with
      | (some w, r) => (some (.extinguish w), r)
      | (none, r) => (none, r)
  else (none, r)

/-- Fire ignition attempt for an 8-neighbourhood flammable class. -/
def attemptIgnite (target : Element) (chance : Chance) : FireAttempt := fun g x y i r =>
  let (c, r) := genBool chance r
  if c then
    match bordering_adjacent g x y i target r with
    | (some l, r) => (some (.ignite l), r)
    | (none, r) => (none, r)
  else (none, r)

/-- Fire-to-wax attempt (1%, 4-neighbourhood); on success also looks for a
background cell below the ignited wax (on the updated grid) to drip
`FallingWax` into. -/
def attemptWax : FireAttempt := fun g x y i r =>
  let (c, r) := genBool ⟨1, 100⟩ r
  if c then
    match bordering g x y i Element.Wax r with
    | (some w, r) =>
      let g1 := g.set_index w Element.Fire
      let wax_y := (g1.index_to_xy w).2
      (some (.igniteWax w (below g1 (max wax_y y) (max w i) Element.Background)), r)
    | (none, r) => (none, r)
  else (none, r)

/-- Fire rise attempt (50%): copy fire into the background cell above. -/
def attemptRise : FireAttempt := fun g _x y i r =>
  let (c, r) := genBool ⟨50, 100⟩ r
  if c then
    match above g y i Element.Background with
    | some a => (some (.rise a), r)
    | none => (none, r)
  else (none, r)

/-- Source `rangeList a b` = the Rust range `a..b`. -/
def rangeList (a b : Nat) : List Nat := (List.range (b - a)).map (a + ·)

/-- The row-major traversal `(y_start..y_end) × (x_start..x_end)` of the
fire flame-out neighbourhood scan. -/
def flameoutCells (g : GameGrid) (x y : Nat) : List (Nat × Nat) :=
  let x_start := x - 1
  let y_start := y - 1
  let x_end := min (x + 2) (g.max_x + 1)
  let y_end := min (y + 2) (g.max_y + 1)
  (rangeList y_start y_end).flatMap fun yi => (rangeList x_start x_end).map fun xi => (yi, xi)

/-- The flame-out neighbourhood scan: first flammable cell wins (the source
breaks out of both loops); fire cells are skipped; wax only counts on the
orthogonal axes; each oil cell encountered consumes a 50% draw. -/
def hasFlammable (g : GameGrid) (x y : Nat) :
    List (Nat × Nat) → RState → Bool × RState
  | [], r => (false, r)
  | (yi, xi) :: rest, r =>
    if yi = y ∧ xi = x then hasFlammable g x y rest r
    else
      let idx := g.xy_to_index xi yi
      if idx ≥ g.elements.length then hasFlammable g x y rest r
      else
        let elem := g.get_index idx
        if elem = Element.Fire then hasFlammable g x y rest r
        else if elem = Element.Plant ∨ elem = Element.Fuse ∨
            elem = Element.Branch ∨ elem = Element.Leaf then (true, r)
        else if (xi = x ∨ yi = y) ∧ elem = Element.Wax then (true, r)
        else if elem = Element.Oil then
          let (c, r') := genBool ⟨50, 100⟩ r
          if c then (true, r') else hasFlammable g x y rest r'
        else hasFlammable g x y rest r

/-- Fire flame-out attempt (40%): succeeds only when the 8-neighbourhood
scan finds no qualifying flammable material. -/
def attemptFlameout : FireAttempt := fun g x y _i r =>
  let (c, r) := genBool ⟨40, 100⟩ r
  if c then
    let (has, r) := hasFlammable g x y (flameoutCells g x y) r
    if !has then (some .flameOut, r) else (none, r)
  else (none, r)

/-- The fire rule's priority order as written in the source: extinguish,
ignite plant/fuse/branch/leaf/wax, rise, ignite oil, flame out. -/
def fireAttemptOrder : List FireAttempt :=
  [attemptExtinguish,
   attemptIgnite Element.Plant ⟨20, 100⟩,
   attemptIgnite Element.Fuse ⟨80, 100⟩,
   attemptIgnite Element.Branch ⟨20, 100⟩,
   attemptIgnite Element.Leaf ⟨20, 100⟩,
   attemptWax,
   attemptRise,
   attemptIgnite Element.Oil ⟨20, 100⟩,
   attemptFlameout]

/-- Modelled from the spec: the order claimed in §4.4 — all flammable-class
ignitions (including oil) strictly before the rise attempt. -/
def fireClaimOrder : List FireAttempt :=
  [attemptExtinguish,
   attemptIgnite Element.Plant ⟨20, 100⟩,
   attemptIgnite Element.Fuse ⟨80, 100⟩,
   attemptIgnite Element.Branch ⟨20, 100⟩,
   attemptIgnite Element.Leaf ⟨20, 100⟩,
   attemptWax,
   attemptIgnite Element.Oil ⟨20, 100⟩,
   attemptRise,
   attemptFlameout]

/-- Fire cascade, last step: flame out (40%) when no flammable neighbour. -/
def fireFlameoutStep (g : GameGrid) (x y i : Nat) (r : RState) : GameGrid × RState :=
  let (c, r) := genBool ⟨40, 100⟩ r
  if c then
    let (has, r) := hasFlammable g x y (flameoutCells g x y) r
    if !has then (g.set_index i Element.Background, r) else (g, r)
  else (g, r)

/-- Generic fire ignition step (the source repeats this block per class):
on success set the neighbour on fire and return, else fall through. -/
def fireIgniteStep (target : Element) (chance : Chance)
    (next : GameGrid → Nat → Nat → Nat → RState → GameGrid × RState)
    (g : GameGrid) (x y i : Nat) (r : RState) : GameGrid × RState :=
  let (c, r) := genBool chance r
  if c then
    match bordering_adjacent g x y i target r with
    | (some l, r) => (g.set_index l Element.Fire, r)
    | (none, r) => next g x y i r
  else next g x y i r

/-- Fire cascade: oil ignition (20%), then flame out. -/
def fireOilStep : GameGrid → Nat → Nat → Nat → RState → GameGrid × RState :=
  fireIgniteStep Element.Oil ⟨20, 100⟩ fireFlameoutStep

/-- Fire cascade: rise (50%) into background above (the source copies fire
upward without clearing the source cell), then oil. -/
def fireRiseStep (g : GameGrid) (x y i : Nat) (r : RState) : GameGrid × RState :=
  let (c, r) := genBool ⟨50, 100⟩ r
  if c then
    match above g y i Element.Background with
    | some a => (g.set_index a Element.Fire, r)
    | none => fireOilStep g x y i r
  else fireOilStep g x y i r

/-- Fire cascade: wax ignition (1%, 4-neighbourhood) with the falling-wax
drip below the ignited wax, then rise. -/
def fireWaxStep (g : GameGrid) (x y i : Nat) (r : RState) : GameGrid × RState :=
  let (c, r) := genBool ⟨1, 100⟩ r
  if c then
    match bordering g x y i Element.Wax r with
    | (some w, r) =>
      let g1 := g.set_index w Element.Fire
      let wax_y := (g1.index_to_xy w).2
      match below g1 (max wax_y y) (max w i) Element.Background with
      | some d => (g1.set_index d Element.FallingWax, r)
      | none => (g1, r)
    | (none, r) => fireRiseStep g x y i r
  else fireRiseStep g x y i r

/-- Fire cascade: leaf ignition (20%), then wax. -/
def fireLeafStep : GameGrid → Nat → Nat → Nat → RState → GameGrid × RState :=
  fireIgniteStep Element.Leaf ⟨20, 100⟩ fireWaxStep

/-- Fire cascade: branch ignition (20%), then leaf. -/
def fireBranchStep : GameGrid → Nat → Nat → Nat → RState → GameGrid × RState :=
  fireIgniteStep Element.Branch ⟨20, 100⟩ fireLeafStep

/-- Fire cascade: fuse ignition (80%), then branch. -/
def fireFuseStep : GameGrid → Nat → Nat → Nat → RState → GameGrid × RState :=
  fireIgniteStep Element.Fuse ⟨80, 100⟩ fireBranchStep

/-- Fire cascade: plant ignition (20%), then fuse. -/
def firePlantStep : GameGrid → Nat → Nat → Nat → RState → GameGrid × RState :=
  fireIgniteStep Element.Plant ⟨20, 100⟩ fireFuseStep

/-- The full `Element::Fire` arm of `execute_element_action`: one 80% draw
guards extinguishing on water then salt water (fire cell to background, the
extinguishing liquid to steam); on failure the cascade continues with the
ignition/rise/flame-out steps. -/
def fireAction (g : GameGrid) (x y i : Nat) (r : RState) : GameGrid × RState :=
  let (c, r) := genBool ⟨80, 100⟩ r
  if c then
    match bordering g x y i Element.Water r with
    | (some w, r) => ((g.set_index w Element.Steam).set_index i Element.Background, r)
    | (none, r) =>
      match bordering g x y i Element.SaltWater r with
      | (some w, r) => ((g.set_index w Element.Steam).set_index i Element.Background, r)
      | (none, r) => firePlantStep g x y i r
  else firePlantStep g x y i r

/-! ## Element rule arms and the per-tick grid scan

`execute_element_action` dispatches on the cell's tag.  The arms exercised
by the verified claims (`Sand`, `Water`, `Fire`, `Rock`; `Background` and
`Wall` are inert) are embedded in full.  The remaining arms are never
reached by any theorem below: every grid-evolution theorem hypothesises
grids whose tags lie among the embedded arms, so the catch-all
identity arm below is never executed in a proved statement. -/

/-- The `Element::Sand` arm: density-sink through water then salt water
(25% each, diagonal), else gravity with diagonal spread (95%). -/
def sandAction (g : GameGrid) (x y i : Nat) (fall_into_void : Bool)
    (r : RState) : GameGrid × RState :=
  if y < g.max_y then
    match do_density_sink g x y i Element.Water true ⟨25, 100⟩ r with
    | (g, true, r) => (g, r)
    | (g, false, r) =>
      match do_density_sink g x y i Element.SaltWater true ⟨25, 100⟩ r with
      | (g, true, r) => (g, r)
      | (g, false, r) =>
        match do_gravity g x y i true ⟨95, 100⟩ fall_into_void r with
        | (g, _, r) => (g, r)
  else
    match do_gravity g x y i true ⟨95, 100⟩ fall_into_void r with
    | (g, _, r) => (g, r)

/-- The `Element::Water` arm: density-liquid against oil (sink 25%,
equalize 50%), else gravity (95%, diagonal). -/
def waterAction (g : GameGrid) (x y i : Nat) (fall_into_void : Bool)
    (r : RState) : GameGrid × RState :=
  match do_density_liquid g x y i Element.Oil ⟨25, 100⟩ ⟨50, 100⟩ r with
  | (g, true, r) => (g, r)
  | (g, false, r) =>
    match do_gravity g x y i true ⟨95, 100⟩ fall_into_void r with
    | (g, _, r) => (g, r)

/-- The `Element::Rock` arm: density-sink through water then oil (95%,
straight down), gravity (99%, no diagonal, result discarded), then the
rock-under-oil methane chemistry (1% · 20%, with a 50% coin choosing which
cell becomes methane). -/
def rockAction (g : GameGrid) (x y i : Nat) (fall_into_void : Bool)
    (r : RState) : GameGrid × RState :=
  if y < g.max_y then
    match do_density_sink g x y i Element.Water false ⟨95, 100⟩ r with
    | (g, true, r) => (g, r)
    | (g, false, r) =>
      match do_density_sink g x y i Element.Oil false ⟨95, 100⟩ r with
      | (g, true, r) => (g, r)
      | (g, false, r) => rockGravityAndMethane g x y i fall_into_void r
  else rockGravityAndMethane g x y i fall_into_void r
where
  /-- the unconditional tail of the rock arm (gravity, then methane). -/
  rockGravityAndMethane (g : GameGrid) (x y i : Nat) (fall_into_void : Bool)
      (r : RState) : GameGrid × RState :=
    match do_gravity g x y i false ⟨99, 100⟩ fall_into_void r with
    | (g, _, r) =>
      let (c1, r) := genBool ⟨1, 100⟩ r
      let (c2, r) := if c1 then genBool ⟨20, 100⟩ r else (false, r)
      if c1 ∧ c2 then
        match above g y i Element.Oil with
        | some oil_loc =>
          let (c3, r) := genBool ⟨50, 100⟩ r
          if c3 then (g.set_index oil_loc Element.Methane, r)
          else (g.set_index i Element.Methane, r)
        | none => (g, r)
      else (g, r)

/-- Source `execute_element_action` from `simulation/physics.rs`, restricted to the
arms reachable in the verified claims; all other tags fall to the identity
arm, which no theorem below ever exercises. -/
def executeElementAction (g : GameGrid) (x y i : Nat) (fall_into_void : Bool)
    (r : RState) : GameGrid × RState :=
  match g.get_index i with
  | Element.Background => (g, r)
  | Element.Wall => (g, r)
  | Element.Sand => sandAction g x y i fall_into_void r
  | Element.Water => waterAction g x y i fall_into_void r
  | Element.Fire => fireAction g x y i r
  | Element.Rock => rockAction g x y i fall_into_void r
  | _ => (g, r)

/-- The cell visit order of `run_simulation_frame` (systems/mod.rs):
bottom row to top row, alternating scan direction by row parity, the
direction chosen from the bottom row's parity. -/
def scanOrder (width height : Nat) : List (Nat × Nat) :=
  let max_y := height - 1
  let max_x := width - 1
  let direction := max_y % 2
  ((List.range (max_y + 1)).reverse).flatMap fun y =>
    if y % 2 = direction then
      ((List.range (max_x + 1)).reverse).map fun x => (x, y)
    else
      (List.range (max_x + 1)).map fun x => (x, y)

/-- One cell visit of the scan: background cells are skipped, any other
cell's rule fires. -/
def simStep (fall_into_void : Bool) (acc : GameGrid × RState)
    (xy : Nat × Nat) : GameGrid × RState :=
  let (g, r) := acc
  let i := g.xy_to_index xy.1 xy.2
  if g.get_index i = Element.Background then (g, r)
  else executeElementAction g xy.1 xy.2 i fall_into_void r

/-- One full grid scan of `run_simulation_frame` (the tree-branch and spigot
phases that precede it act on state absent from every verified scenario). -/
def simulationTick (g : GameGrid) (fall_into_void : Bool) (r : RState) :
    GameGrid × RState :=
  (scanOrder g.width g.height).foldl (simStep fall_into_void) (g, r)

/-- Iterated simulation ticks. -/
def runTicks : Nat → GameGrid → Bool → RState → GameGrid × RState
  | 0, g, _, r => (g, r)
  | n + 1, g, fiv, r =>
    let (g', r') := simulationTick g fiv r
    runTicks n g' fiv r'

/-- The all-successes oracle: every probability draw succeeds. -/
def allTrue : RState := { oracle := fun _ => true, k := 0 }

/-! ## Particle pool (particles/types.rs, particles/manager.rs)

`f32` particle fields only ever hold copied/assigned values in the pool
manager, so they are modelled exactly as `ℚ`. -/

/-- Source `ParticleType` from `particles/types.rs` (11 archetypes). -/
inductive ParticleType where
  | Unknown | Nitro | Napalm | C4 | Lava | Magic1 | Magic2 | Methane | Tree
  | ChargedNitro | Nuke
  deriving DecidableEq, Repr, Fintype

/-- Source `ParticleType::index` (the `#[repr(u8)]` discriminant). -/
def ParticleType.index : ParticleType → Nat
  | .Unknown => 0 | .Nitro => 1 | .Napalm => 2 | .C4 => 3 | .Lava => 4
  | .Magic1 => 5 | .Magic2 => 6 | .Methane => 7 | .Tree => 8
  | .ChargedNitro => 9 | .Nuke => 10

/-- Source `Particle` from `particles/types.rs`: kinematic state plus the
archetype-specific optional-field bag. -/
structure Particle where
  particle_type : ParticleType
  init_x : ℚ
  init_y : ℚ
  x : ℚ
  y : ℚ
  prev_x : ℚ
  prev_y : ℚ
  init_i : Nat
  color : Element
  velocity : ℚ
  angle : ℚ
  x_velocity : ℚ
  y_velocity : ℚ
  size : ℚ
  action_iterations : Nat
  active : Bool
  reinitialized : Bool
  max_iterations : Option Nat
  min_y : Option ℚ
  magic_2_max_radius : Option ℚ
  magic_2_theta : Option ℚ
  magic_2_speed : Option ℚ
  magic_2_radius_spacing : Option ℚ
  magic_2_radius : Option ℚ
  y_acceleration : Option ℚ
  init_y_velocity : Option ℚ
  tree_generation : Option Nat
  tree_branch_spacing : Option Nat
  tree_max_branches : Option Nat
  tree_next_branch : Option Nat
  tree_branches : Option Nat
  tree_type : Option Nat
  deriving DecidableEq, Repr

/-- Source `Particle::default` / `Particle::new` from `particles/types.rs`. -/
def Particle.new : Particle :=
  { particle_type := .Unknown
    init_x := -1, init_y := -1, x := -1, y := -1, prev_x := -1, prev_y := -1
    init_i := 0
    color := Element.Fire
    velocity := 0, angle := 0, x_velocity := 0, y_velocity := 0, size := 0
    action_iterations := 0
    active := false
    reinitialized := false
    max_iterations := none, min_y := none
    magic_2_max_radius := none, magic_2_theta := none, magic_2_speed := none
    magic_2_radius_spacing := none, magic_2_radius := none
    y_acceleration := none, init_y_velocity := none
    tree_generation := none, tree_branch_spacing := none
    tree_max_branches := none, tree_next_branch := none
    tree_branches := none, tree_type := none }

/-- Source `Particle::reset` from `particles/types.rs`: every field, including every
archetype-specific optional field, is set back to its default value. -/
def Particle.reset (_p : Particle) : Particle :=
  { particle_type := .Unknown
    init_x := -1, init_y := -1, x := -1, y := -1, prev_x := -1, prev_y := -1
    init_i := 0
    color := Element.Fire
    velocity := 0, angle := 0, x_velocity := 0, y_velocity := 0, size := 0
    action_iterations := 0
    active := false
    reinitialized := false
    max_iterations := none, min_y := none
    magic_2_max_radius := none, magic_2_theta := none, magic_2_speed := none
    magic_2_radius_spacing := none, magic_2_radius := none
    y_acceleration := none, init_y_velocity := none
    tree_generation := none, tree_branch_spacing := none
    tree_max_branches := none, tree_next_branch := none
    tree_branches := none, tree_type := none }

/-- Source `Particle::off_canvas`. -/
def Particle.off_canvas (p : Particle) (mx my : ℚ) : Prop :=
  p.x < 0 ∨ p.x > mx ∨ p.y < 0 ∨ p.y > my

instance (p : Particle) (mx my : ℚ) : Decidable (p.off_canvas mx my) := by
  unfold Particle.off_canvas
  infer_instance

/-- Source `MAX_NUM_PARTICLES` from `particles/types.rs` (kept opaque to elaboration
so that goals never expand the 2048-slot pool literally). -/
@[irreducible] def MAX_NUM_PARTICLES : Nat := 2048

/-- Source `ParticleList` from `particles/manager.rs`: pre-allocated slot pool,
active/free index lists, and the per-archetype live-count table
(`[u32; 11]`, modelled as an 11-entry list). -/
structure ParticleList where
  particles : List Particle
  active_indices : List Nat
  inactive_indices : List Nat
  particle_counts : List Nat
  deriving DecidableEq, Repr

/-- Source `ParticleList::default`: 2048 fresh inactive slots, all indices free. -/
def ParticleList.default : ParticleList :=
  { particles := List.replicate MAX_NUM_PARTICLES Particle.new
    active_indices := []
    inactive_indices := List.range MAX_NUM_PARTICLES
    particle_counts := List.replicate 11 0 }

/-- Source `ParticleList::add_active_particle`: spawn from the free list (a `Vec`,
popped from the end).  Returns `none` and leaves the pool untouched when the
free list is empty.  The sequence of field mutations of the source (reset,
then the kinematic/base field assignments) is combined into one record
update with the same net effect. -/
def ParticleList.add_active_particle (pl : ParticleList)
    (particle_type : ParticleType) (x y : ℚ) (grid_i : Nat) :
    Option Nat × ParticleList :=
  if pl.inactive_indices.isEmpty then (none, pl)
  else
    let particle_idx := pl.inactive_indices.getLastD 0
    let inactive' := pl.inactive_indices.dropLast
    let p := (pl.particles.getD particle_idx Particle.new).reset
    let p := { p with
      particle_type := particle_type
      init_x := x, init_y := y, x := x, y := y, prev_x := x, prev_y := y
      init_i := grid_i
      active := true
      action_iterations := 0
      reinitialized := false }
    (some particle_idx,
     { particles := pl.particles.set particle_idx p
       active_indices := pl.active_indices ++ [particle_idx]
       inactive_indices := inactive'
       particle_counts := pl.particle_counts.set particle_type.index
         (pl.particle_counts.getD particle_type.index 0 + 1) })

/-- Source `ParticleList::make_particle_inactive`: no-op on an already inactive
slot; otherwise decrement the type count, move the index from the active to
the free list (`Vec::remove` of the first position match, push at the end),
and reset the particle.  The source's sequential mutations (`active = false`,
count decrement, list moves, final `reset`) are combined into one record
update with the same net effect (`reset` clears `active` as well). -/
def ParticleList.make_particle_inactive (pl : ParticleList)
    (particle_idx : Nat) : ParticleList :=
  let particle := pl.particles.getD particle_idx Particle.new
  if !particle.active then pl
  else
    { particles := pl.particles.set particle_idx particle.reset
      active_indices := pl.active_indices.erase particle_idx
      inactive_indices := pl.inactive_indices ++ [particle_idx]
      particle_counts := pl.particle_counts.set particle.particle_type.index
        (pl.particle_counts.getD particle.particle_type.index 0 - 1) }

/-- Source `ParticleList::particle_active`. -/
def ParticleList.particle_active (pl : ParticleList) (t : ParticleType) : Prop :=
  pl.particle_counts.getD t.index 0 > 0

/-- A spawn or deactivate request, for reasoning about arbitrary operation
sequences on the pool. -/
inductive PoolOp where
  | spawn (t : ParticleType) (x y : ℚ) (grid_i : Nat)
  | deactivate (idx : Nat)
  deriving Repr

/-- Apply one pool operation. -/
def applyPoolOp (pl : ParticleList) : PoolOp → ParticleList
  | .spawn t x y gi => (pl.add_active_particle t x y gi).2
  | .deactivate idx => pl.make_particle_inactive idx

/-- Apply a sequence of pool operations. -/
def applyPoolOps (pl : ParticleList) (ops : List PoolOp) : ParticleList :=
  ops.foldl applyPoolOp pl

/-- The slot/free-list/count consistency invariant of the pool (spec §3:
"each slot is active XOR free; counts track active flags exactly", plus the
index-list book-keeping that makes it stable). -/
def ParticleList.wellFormed (pl : ParticleList) : Prop :=
  pl.active_indices.Nodup ∧
  pl.inactive_indices.Nodup ∧
  (∀ j ∈ pl.active_indices, j < pl.particles.length) ∧
  (∀ j ∈ pl.inactive_indices, j < pl.particles.length) ∧
  (∀ j < pl.particles.length,
    ((pl.particles.getD j Particle.new).active = true ↔ j ∈ pl.active_indices)) ∧
  (∀ j < pl.particles.length,
    ((pl.particles.getD j Particle.new).active = false ↔ j ∈ pl.inactive_indices)) ∧
  pl.particle_counts.length = 11 ∧
  (∀ t : ParticleType,
    pl.particle_counts.getD t.index 0 =
      (pl.active_indices.filter
        (fun j => (pl.particles.getD j Particle.new).particle_type = t)).length)

instance (pl : ParticleList) : Decidable pl.wellFormed := by
  unfold ParticleList.wellFormed
  infer_instance

/-- The particle written into a freshly spawned slot: fully determined by
the spawn arguments alone. -/
def freshParticle (t : ParticleType) (x y : ℚ) (grid_i : Nat) : Particle :=
  { Particle.new with
    particle_type := t
    init_x := x, init_y := y, x := x, y := y, prev_x := x, prev_y := y
    init_i := grid_i
    active := true }

/-! ## Tree growth (physics.rs `process_tree_branches`, actions.rs
`tree_particle_action`)

The branch motion is driven by `f32` trigonometry (`angle.cos() * velocity`
etc.).  Real-valued quantities produced by trigonometry and by random jitter
are abstracted as `ℚ`-valued inputs supplied per step; the grid/pool control
flow (bounds check, wall check, tissue stamping, child creation,
termination) is translated literally.  `(n as f32 * q) as u32` scalings are
modelled as exact rational multiplication followed by floor. -/

/-- Source `(n as f32 * q) as u32`: scale a `Nat` by a rational factor, truncating. -/
def ratioFloor (n : Nat) (q : ℚ) : Nat := (q * n).floor.toNat

/-- Rust `f32::round` (half away from zero) on an exact rational. -/
def qRound (q : ℚ) : ℤ := if 0 ≤ q then ⌊q + 1/2⌋ else -⌊-q + 1/2⌋

/-- Source `TreeBranch` from `simulation/physics.rs`. -/
structure TreeBranch where
  x : ℚ
  y : ℚ
  angle : ℚ
  generation : Nat
  max_branches : Nat
  branch_spacing : Nat
  next_branch : Nat
  branches_created : Nat
  tree_type : Nat
  iterations : Nat
  deriving DecidableEq, Repr

/-- The per-step random/trigonometric quantities consumed by one branch in
`process_tree_branches`: the step vector `(dx, dy)` stands for
`(cos angle, sin angle) * velocity` with `velocity = 1 + rand * 0.5`, the
branch-angle jitter for `π/8 + rand * π/4`, and the spacing jitter for
`0.65 + rand * 0.35`. -/
structure BranchStepRand where
  dx : ℚ
  dy : ℚ
  branchAngleDelta : ℚ
  spacingJitter : ℚ
  deriving Repr, Inhabited

/-- The loop body of `process_tree_branches` for one branch: advance, check
bounds and walls (terminating with no write on either), stamp branch tissue
into background, then handle scheduled branch subdivision and exhausted
branch budgets (terminal cell becomes leaf).  Returns the updated grid, the
surviving updated branch (`none` when the branch is removed this tick), and
the newly created child branches. -/
def treeBranchStep (g : GameGrid) (b0 : TreeBranch) (rnd : BranchStepRand) :
    GameGrid × Option TreeBranch × List TreeBranch :=
  let b := { b0 with iterations := b0.iterations + 1 }
  let new_x := b.x + rnd.dx
  let new_y := b.y + rnd.dy
  if new_x < 0 ∨ new_x ≥ (g.width : ℚ) ∨ new_y < 0 ∨ new_y ≥ (g.height : ℚ) then
    (g, none, [])
  else
    let new_x_int := new_x.floor.toNat
    let new_y_int := new_y.floor.toNat
    let new_idx := g.xy_to_index new_x_int new_y_int
    if new_idx ≥ g.elements.length then (g, none, [])
    else if g.get_index new_idx = Element.Wall then (g, none, [])
    else
      let g := if g.get_index new_idx = Element.Background then
                 g.set_index new_idx Element.Branch
               else g
      let b := { b with x := new_x, y := new_y }
      if b.iterations ≥ b.next_branch then
        let b := { b with branches_created := b.branches_created + 1 }
        if b.max_branches = 0 then
          let g := if g.get_index new_idx = Element.Branch then
                     g.set_index new_idx Element.Leaf
                   else g
          (g, none, [])
        else
          let left_branch_spacing := ratioFloor b.branch_spacing (9/10)
          let child : ℚ → TreeBranch := fun ang =>
            { x := b.x, y := b.y, angle := ang
              generation := b.generation + 1
              max_branches := b.max_branches - 1
              branch_spacing := left_branch_spacing
              next_branch := left_branch_spacing
              branches_created := 0
              tree_type := b.tree_type
              iterations := 0 }
          let children := [child (b.angle + rnd.branchAngleDelta),
                           child (b.angle - rnd.branchAngleDelta)]
          let b := if b.branch_spacing > 45 then
                     { b with branch_spacing := ratioFloor b.branch_spacing (8/10) }
                   else b
          let b := { b with
            next_branch := b.iterations + ratioFloor b.branch_spacing rnd.spacingJitter }
          if b.branches_created ≥ b.max_branches then
            let g := if g.get_index new_idx = Element.Branch then
                       g.set_index new_idx Element.Leaf
                     else g
            (g, none, children)
          else (g, some b, children)
      else
        if b.branches_created ≥ b.max_branches then
          let g := if g.get_index new_idx = Element.Branch then
                     g.set_index new_idx Element.Leaf
                   else g
          (g, none, [])
        else (g, some b, [])

/-- The loop of `process_tree_branches` over the branch list (one random
bundle per branch); finished branches are dropped, children are appended
after the loop. -/
def processTreeBranchesAux (g : GameGrid) :
    List TreeBranch → List BranchStepRand → GameGrid × List TreeBranch × List TreeBranch
  | [], _ => (g, [], [])
  | b :: rest, rnds =>
    match treeBranchStep g b (rnds.headD default) with
    | (g', ob, children) =>
      match processTreeBranchesAux g' rest rnds.tail with
      | (g'', survivors, laterChildren) =>
        (g'', (ob.toList) ++ survivors, children ++ laterChildren)

/-- Source `process_tree_branches`: step every branch, remove the finished ones,
extend with the new children. -/
def processTreeBranches (g : GameGrid) (branches : List TreeBranch)
    (rnds : List BranchStepRand) : GameGrid × List TreeBranch :=
  match processTreeBranchesAux g branches rnds with
  | (g', survivors, children) => (g', survivors ++ children)

/-- Source `Particle::set_velocity`; the trigonometric functions are supplied as
abstract `ℚ → ℚ` arguments. -/
def Particle.set_velocity (p : Particle) (cosF sinF : ℚ → ℚ)
    (velocity angle : ℚ) : Particle :=
  { p with velocity := velocity, angle := angle
           x_velocity := velocity * cosF angle
           y_velocity := velocity * sinF angle }

/-- The random/trigonometric quantities consumed by one
`tree_particle_action` step: the unit direction of
`atan2(y_velocity, x_velocity)` for the wall probe, the branch-angle and
spacing jitters, and abstract cosine/sine for `set_velocity`. -/
structure TreeActionRand where
  probeCos : ℚ
  probeSin : ℚ
  branchAngleDelta : ℚ
  spacingJitter : ℚ
  cosF : ℚ → ℚ
  sinF : ℚ → ℚ

/-- Child-particle creation inside `tree_particle_action`: spawn a `Tree`
particle from the pool and fill its tree bookkeeping; silently skipped when
the pool refuses the spawn. -/
def spawnTreeChild (pl : ParticleList) (angle : ℚ) (x y : ℚ) (init_i : Nat)
    (generation max_branches new_branch_spacing : Nat)
    (particle_velocity particle_size : ℚ) (tree_type : Nat)
    (leaf_branch : Bool) (rnd : TreeActionRand) : ParticleList :=
  match pl.add_active_particle ParticleType.Tree x y init_i with
  | (some idx, pl) =>
    if idx < pl.particles.length then
      let np := pl.particles.getD idx Particle.new
      let np := { np with
        tree_generation := some (generation + 1)
        tree_max_branches := some (max_branches - 1)
        tree_branch_spacing := some new_branch_spacing
        tree_next_branch := some new_branch_spacing
        angle := angle }
      let np := np.set_velocity rnd.cosF rnd.sinF particle_velocity angle
      let np := { np with
        size := max (particle_size - 1) 2
        tree_type := some tree_type
        tree_branches := some 0 }
      let np := if leaf_branch then { np with color := Element.Leaf } else np
      { pl with particles := pl.particles.set idx np }
    else pl
  | (none, pl) => pl

/-- Source `tree_particle_action` from `particles/actions.rs`: move the particle,
remove it when off canvas or when the probe point half the particle's width
ahead hits a wall, otherwise run the scheduled branch subdivision (spawning
child tree particles from the pool).  Returns the removal flag, the updated
particle, and the updated pool; the grid is read-only throughout. -/
def treeParticleAction (p0 : Particle) (pl : ParticleList) (g : GameGrid)
    (rnd : TreeActionRand) : Bool × Particle × ParticleList :=
  let p := { p0 with prev_x := p0.x, prev_y := p0.y }
  let particle_velocity := p.velocity
  let particle_size := p.size
  let p := { p with x := p.x + p.x_velocity, y := p.y + p.y_velocity }
  if p.off_canvas (g.width : ℚ) (g.height : ℚ) then (true, p, pl)
  else
    let radius := p.size / 2
    let x_prime := p.x + rnd.probeCos * radius
    let y_prime := p.y + rnd.probeSin * radius
    let idx := (qRound x_prime).toNat + (qRound y_prime).toNat * g.width
    if idx < g.elements.length ∧ g.get_index idx = Element.Wall then (true, p, pl)
    else
      let iterations := p.action_iterations
      match p.tree_next_branch, p.tree_branches, p.tree_max_branches,
          p.tree_branch_spacing, p.tree_generation, p.tree_type with
      | some next_branch, some branches, some max_branches,
          some branch_spacing, some generation, some tree_type =>
        if iterations ≥ next_branch then
          let new_branches := branches + 1
          let p := { p with tree_branches := some new_branches }
          if max_branches = 0 then (true, p, pl)
          else
            let leaf_branch : Bool :=
              p.color = Element.Leaf ∨ new_branches ≥ max_branches
            let branch_angles :=
              if tree_type = 0 then
                [p.angle + rnd.branchAngleDelta, p.angle - rnd.branchAngleDelta]
              else if tree_type = 1 then
                [p.angle, p.angle + rnd.branchAngleDelta,
                 p.angle - rnd.branchAngleDelta]
              else [p.angle]
            let spacing_factor : ℚ :=
              if tree_type = 0 then 9/10 else if tree_type = 1 then 6/10 else 9/10
            let new_branch_spacing := ratioFloor branch_spacing spacing_factor
            let pl := branch_angles.foldl (fun pl ang =>
              spawnTreeChild pl ang p.x p.y p.init_i generation max_branches
                new_branch_spacing particle_velocity particle_size tree_type
                leaf_branch rnd) pl
            if new_branches ≥ max_branches then (true, p, pl)
            else
              let updated_branch_spacing :=
                if branch_spacing > 45 then ratioFloor branch_spacing (8/10)
                else branch_spacing
              let next_branch_time :=
                iterations + ratioFloor updated_branch_spacing rnd.spacingJitter
              let p := { p with
                tree_next_branch := some next_branch_time
                tree_branch_spacing := some updated_branch_spacing }
              (false, p, pl)
        else (false, p, pl)
      | _, _, _, _, _, _ => (false, p, pl)

/-! ## Serialization and save/load (grid.rs derives, systems/mod.rs
`handle_save_load`) -/

/-- Modelled from the spec: the persisted snapshot is "grid dimensions +
cell array only" (§6), produced by the `Serialize` derive on `GameGrid`
through the external `bincode` crate (field order: `elements` as a
length-prefixed sequence of tag codes, then `width`, then `height`); the
tag codes are the repository's own `Element::index` discriminants. -/
def serializeGrid (g : GameGrid) : List Nat :=
  g.elements.length :: (g.elements.map Element.index ++ [g.width, g.height])

/-- Modelled from the spec: the matching decoder for `serializeGrid`;
malformed data (wrong length prefix or missing dimension fields) fails with
`none`, as `bincode::deserialize` fails with `Err`. -/
def deserializeGrid (data : List Nat) : Option GameGrid :=
  match data with
  | [] => none
  | n :: rest =>
    let elems := rest.take n
    match rest.drop n with
    | [w, h] =>
      if elems.length = n then
        some { elements := elems.map Element.from_index, width := w, height := h }
      else none
    | _ => none

/-- The load path of `handle_save_load` (systems/mod.rs): the result of
`std::fs::read` is modelled as `Option` raw data (`none` = missing or
unreadable file).  The live grid is replaced only when both the read and
the deserialization succeed; on any failure it is returned untouched. -/
def handleLoad (current : GameGrid) (fileData : Option (List Nat)) : GameGrid :=
  match fileData with
  | none => current
  | some data =>
    match deserializeGrid data with
    | none => current
    | some loaded => loaded

/-! ## Concrete scenario constants used by the claims -/

/-- C2 scenario: 10×10 grid, sand at (5,0), else background. -/
def sandDropGrid : GameGrid :=
  { elements := List.replicate 5 Element.Background ++ [Element.Sand] ++
      List.replicate 94 Element.Background
    width := 10, height := 10 }

/-- C2 expected result: sand at (5,9), else background. -/
def sandDropTarget : GameGrid :=
  { elements := List.replicate 95 Element.Background ++ [Element.Sand] ++
      List.replicate 4 Element.Background
    width := 10, height := 10 }

/-- C3 counterexample scenario: 2×2 grid with fire at (0,1) (index 2),
oil at (1,1) (index 3), background above. -/
def fireOilGrid : GameGrid :=
  { elements := [Element.Background, Element.Background, Element.Fire, Element.Oil]
    width := 2, height := 2 }

/-- C10 scenario: 3×2 grid, sand at (1,0) (index 1) with the cell below and
both diagonal cells below occupied, left neighbour occupied, right
neighbour background. -/
def sideFallGrid : GameGrid :=
  { elements := [Element.Sand, Element.Sand, Element.Background,
                 Element.Sand, Element.Sand, Element.Sand]
    width := 3, height := 2 }

/-- A minimal full pool: one slot, active, free list empty. -/
def onePool : ParticleList :=
  { particles := [{ Particle.new with active := true, particle_type := ParticleType.Nitro }]
    active_indices := [0]
    inactive_indices := []
    particle_counts := [0, 1, 0, 0, 0, 0, 0, 0, 0, 0, 0] }

/-- A pool holding one inactive slot with stale (dirty) archetype data, as
could never arise through the manager API; used to check that a spawn fully
overwrites the previous occupant's state. -/
def dirtyPool : ParticleList :=
  { particles := [{ Particle.new with
      particle_type := ParticleType.Magic2
      max_iterations := some 99
      magic_2_theta := some 7
      tree_generation := some 3
      y_acceleration := some 2
      color := Element.Lava
      size := 5 }]
    active_indices := []
    inactive_indices := [0]
    particle_counts := List.replicate 11 0 }

/-- C1 witness scenario: 2×2 grid of sand, water, rock and background. -/
def smallMixGrid : GameGrid :=
  { elements := [Element.Sand, Element.Background, Element.Water, Element.Rock]
    width := 2, height := 2 }

/-- C9 witness scenario: 2×2 grid with a wall at (0,0). -/
def wallGrid : GameGrid :=
  { elements := [Element.Wall, Element.Background,
                 Element.Background, Element.Background]
    width := 2, height := 2 }

/-- C9 witness scenario: a branch at (0,1) about to step straight up into
the wall at (0,0). -/
def wallBoundBranch : TreeBranch :=
  { x := 0, y := 1, angle := 0, generation := 1, max_branches := 1
    branch_spacing := 15, next_branch := 15, branches_created := 0
    tree_type := 0, iterations := 0 }

/-- C9 witness scenario: the straight-up unit step. -/
def upStep : BranchStepRand :=
  { dx := 0, dy := -1, branchAngleDelta := 0, spacingJitter := 1 }

/-- C9 witness scenario: a tree particle at (0,1) probing straight up. -/
def wallBoundParticle : Particle :=
  { Particle.new with
    particle_type := ParticleType.Tree
    x := 0, y := 1, x_velocity := 0, y_velocity := -1/2
    size := 1, velocity := 1/2, active := true
    tree_generation := some 1, tree_branch_spacing := some 15
    tree_max_branches := some 1, tree_next_branch := some 15
    tree_branches := some 0, tree_type := some 0 }

/-- C9 witness scenario: the probe direction for `wallBoundParticle`
(straight up: cos θ = 0, sin θ = −1). -/
def upProbe : TreeActionRand :=
  { probeCos := 0, probeSin := -1, branchAngleDelta := 0, spacingJitter := 1
    cosF := fun _ => 0, sinF := fun _ => 0 }

/-- Equality of the cell multiset together with equal dimensions: the
relation a pure-movement scan preserves. -/
def sameContent (g' g : GameGrid) : Prop :=
  (g'.elements : Multiset Element) = (g.elements : Multiset Element) ∧
  g'.width = g.width ∧ g'.height = g.height

/-- The element classes whose `execute_element_action` arms only relocate
cells (no chemistry): the pure-movement fragment of the rule engine. -/
def pureMoveElem (e : Element) : Prop :=
  e = Element.Background ∨ e = Element.Sand ∨ e = Element.Water ∨ e = Element.Rock

instance (e : Element) : Decidable (pureMoveElem e) := by
  unfold pureMoveElem; infer_instance

theorem runAttempts_cons (a : FireAttempt) (l : List FireAttempt)
    (g : GameGrid) (x y i : Nat) (r : RState) :
    runAttempts (a :: l) g x y i r =
      match a g x y i r with
      | (some o, r') => (applyFireOutcome g i (some o), r')
      | (none, r') => runAttempts l g x y i r' := by
  have h1 : firstSuccess (a :: l) g x y i r =
      match a g x y i r with
      | (some o, r') => (some o, r')
      | (none, r') => firstSuccess l g x y i r' := rfl
  unfold runAttempts
  rw [h1]
  cases h : a g x y i r with
  | mk o r' => cases o <;> rfl

theorem fireIgniteStep_eq (target : Element) (chance : Chance)
    (next : GameGrid → Nat → Nat → Nat → RState → GameGrid × RState)
    (l : List FireAttempt)
    (hnext : ∀ g x y i r, next g x y i r = runAttempts l g x y i r)
    (g : GameGrid) (x y i : Nat) (r : RState) :
    fireIgniteStep target chance next g x y i r =
      runAttempts (attemptIgnite target chance :: l) g x y i r := by
  rw [runAttempts_cons]
  unfold fireIgniteStep attemptIgnite
  cases hgb : genBool chance r with
  | mk c r1 =>
    cases c
    · simp [hnext]
    · cases hba : bordering_adjacent g x y i target r1 with
      | mk ob r2 => cases ob <;> simp [hba, hnext, applyFireOutcome]

theorem fireFlameoutStep_eq (g : GameGrid) (x y i : Nat) (r : RState) :
    fireFlameoutStep g x y i r = runAttempts [attemptFlameout] g x y i r := by
  rw [runAttempts_cons]
  unfold fireFlameoutStep attemptFlameout
  cases hgb : genBool ⟨40, 100⟩ r with
  | mk c r1 =>
    cases c
    · simp [runAttempts, firstSuccess, applyFireOutcome]
    · cases hhf : hasFlammable g x y (flameoutCells g x y) r1 with
      | mk has r2 => cases has <;> simp [hhf, runAttempts, firstSuccess, applyFireOutcome]

theorem fireOilStep_eq (g : GameGrid) (x y i : Nat) (r : RState) :
    fireOilStep g x y i r =
      runAttempts [attemptIgnite Element.Oil ⟨20, 100⟩, attemptFlameout] g x y i r :=
  fireIgniteStep_eq Element.Oil ⟨20, 100⟩ fireFlameoutStep [attemptFlameout]
    fireFlameoutStep_eq g x y i r

theorem fireRiseStep_eq (g : GameGrid) (x y i : Nat) (r : RState) :
    fireRiseStep g x y i r =
      runAttempts [attemptRise, attemptIgnite Element.Oil ⟨20, 100⟩,
        attemptFlameout] g x y i r := by
  rw [runAttempts_cons]
  unfold fireRiseStep attemptRise
  cases hgb : genBool ⟨50, 100⟩ r with
  | mk c r1 =>
    cases c
    · simp [fireOilStep_eq]
    · cases hab : above g y i Element.Background with
      | none => simp [hab, fireOilStep_eq]
      | some a => simp [hab, applyFireOutcome]

theorem fireWaxStep_eq (g : GameGrid) (x y i : Nat) (r : RState) :
    fireWaxStep g x y i r =
      runAttempts [attemptWax, attemptRise, attemptIgnite Element.Oil ⟨20, 100⟩,
        attemptFlameout] g x y i r := by
  rw [runAttempts_cons]
  unfold fireWaxStep attemptWax
  cases hgb : genBool ⟨1, 100⟩ r with
  | mk c r1 =>
    cases c
    · simp [fireRiseStep_eq]
    · cases hbw : bordering g x y i Element.Wax r1 with
      | mk ow r2 =>
        cases ow with
        | none => simp [hbw, fireRiseStep_eq]
        | some w =>
          simp only [hbw]
          cases hbl : below (g.set_index w Element.Fire)
              (max ((g.set_index w Element.Fire).index_to_xy w).2 y)
              (max w i) Element.Background with
          | none => simp [hbl, applyFireOutcome]
          | some d => simp [hbl, applyFireOutcome]

theorem fireLeafStep_eq (g : GameGrid) (x y i : Nat) (r : RState) :
    fireLeafStep g x y i r =
      runAttempts [attemptIgnite Element.Leaf ⟨20, 100⟩, attemptWax, attemptRise,
        attemptIgnite Element.Oil ⟨20, 100⟩, attemptFlameout] g x y i r :=
  fireIgniteStep_eq Element.Leaf ⟨20, 100⟩ fireWaxStep _ fireWaxStep_eq g x y i r

theorem fireBranchStep_eq (g : GameGrid) (x y i : Nat) (r : RState) :
    fireBranchStep g x y i r =
      runAttempts [attemptIgnite Element.Branch ⟨20, 100⟩,
        attemptIgnite Element.Leaf ⟨20, 100⟩, attemptWax, attemptRise,
        attemptIgnite Element.Oil ⟨20, 100⟩, attemptFlameout] g x y i r :=
  fireIgniteStep_eq Element.Branch ⟨20, 100⟩ fireLeafStep _ fireLeafStep_eq g x y i r

theorem fireFuseStep_eq (g : GameGrid) (x y i : Nat) (r : RState) :
    fireFuseStep g x y i r =
      runAttempts [attemptIgnite Element.Fuse ⟨80, 100⟩,
        attemptIgnite Element.Branch ⟨20, 100⟩,
        attemptIgnite Element.Leaf ⟨20, 100⟩, attemptWax, attemptRise,
        attemptIgnite Element.Oil ⟨20, 100⟩, attemptFlameout] g x y i r :=
  fireIgniteStep_eq Element.Fuse ⟨80, 100⟩ fireBranchStep _ fireBranchStep_eq g x y i r

theorem firePlantStep_eq (g : GameGrid) (x y i : Nat) (r : RState) :
    firePlantStep g x y i r =
      runAttempts [attemptIgnite Element.Plant ⟨20, 100⟩,
        attemptIgnite Element.Fuse ⟨80, 100⟩,
        attemptIgnite Element.Branch ⟨20, 100⟩,
        attemptIgnite Element.Leaf ⟨20, 100⟩, attemptWax, attemptRise,
        attemptIgnite Element.Oil ⟨20, 100⟩, attemptFlameout] g x y i r :=
  fireIgniteStep_eq Element.Plant ⟨20, 100⟩ fireFuseStep _ fireFuseStep_eq g x y i r

/-- Claim C3 (amended): the fire rule is a prioritized first-success-wins
chain with exactly one outcome per tick, but its order differs from the
claim: extinguish on water/salt-water (80%); ignite plant (20%), fuse
(80%), branch (20%), leaf (20%); wax (1%); then the RISE attempt (50%);
then OIL ignition (20%); and finally flame out (40%) when no qualifying
flammable neighbour exists.  Oil ignition is attempted after the rise
attempt, not among the other flammable classes before it. -/
theorem c3_fire_priority_amended (g : GameGrid) (x y i : Nat) (r : RState) :
    fireAction g x y i r = runAttempts fireAttemptOrder g x y i r := by
  rw [show fireAttemptOrder = attemptExtinguish ::
      [attemptIgnite Element.Plant ⟨20, 100⟩, attemptIgnite Element.Fuse ⟨80, 100⟩,
       attemptIgnite Element.Branch ⟨20, 100⟩, attemptIgnite Element.Leaf ⟨20, 100⟩,
       attemptWax, attemptRise, attemptIgnite Element.Oil ⟨20, 100⟩,
       attemptFlameout] from rfl, runAttempts_cons]
  unfold fireAction attemptExtinguish
  cases hgb : genBool ⟨80, 100⟩ r with
  | mk c r1 =>
    cases c
    · simp [firePlantStep_eq]
    · cases hbw : bordering g x y i Element.Water r1 with
      | mk ow r2 =>
        cases ow with
        | some w => simp [hbw, applyFireOutcome]
        | none =>
          simp only [hbw]
          cases hbs : bordering g x y i Element.SaltWater r2 with
          | mk os r3 =>
            cases os with
            | some w => simp [hbs, applyFireOutcome]
            | none => simp [hbs, firePlantStep_eq]

theorem from_index_index (e : Element) : Element.from_index e.index = e := by
  cases e <;> rfl

theorem map_from_index_map_index (l : List Element) :
    (l.map Element.index).map Element.from_index = l := by
  rw [List.map_map]
  exact List.map_id'' (fun e => from_index_index e) l

/-- Claim C7: serializing any grid and deserializing the result yields the
identical grid (same width, height and cell list). -/
theorem c7_serialize_roundtrip (g : GameGrid) : deserializeGrid (serializeGrid g) = some g := by
  unfold serializeGrid deserializeGrid
  have hlen : (g.elements.map Element.index).length = g.elements.length :=
    List.length_map _ _
  have htake : ((g.elements.map Element.index) ++ [g.width, g.height]).take
      g.elements.length = g.elements.map Element.index := by
    rw [← hlen]; exact List.take_left _ _
  have hdrop : ((g.elements.map Element.index) ++ [g.width, g.height]).drop
      g.elements.length = [g.width, g.height] := by
    rw [← hlen]; exact List.drop_left _ _
  simp only [htake, hdrop, hlen, if_pos rfl]
  rw [map_from_index_map_index]
  simp

/-- Claim C6: for every grid and every out-of-bounds position (x >= width
or y >= height, or flat index >= length), `get`/`get_index` return
`Background` and `set`/`set_index` leave the grid unchanged. -/
theorem c6_oob_neutral (g : GameGrid) (x y i : Nat) (e e' : Element)
    (hxy : g.width ≤ x ∨ g.height ≤ y) (hi : g.elements.length ≤ i) :
    g.get x y = Element.Background ∧ g.set x y e = g ∧
    g.get_index i = Element.Background ∧ g.set_index i e' = g := by
  have hc : x ≥ g.width ∨ y ≥ g.height := hxy
  have hc' : i ≥ g.elements.length := hi
  refine ⟨?_, ?_, ?_, ?_⟩
  · unfold GameGrid.get; rw [if_pos hc]
  · unfold GameGrid.set; rw [if_pos hc]
  · unfold GameGrid.get_index; rw [if_pos hc']
  · unfold GameGrid.set_index; rw [if_pos hc']

/-- Witness for C6 at a concrete 1x1 grid and out-of-range accesses. -/
theorem c6_oob_neutral_witness :
    GameGrid.get ⟨[Element.Sand], 1, 1⟩ 5 0 = Element.Background ∧
    GameGrid.set ⟨[Element.Sand], 1, 1⟩ 5 0 Element.Water = ⟨[Element.Sand], 1, 1⟩ ∧
    GameGrid.get_index ⟨[Element.Sand], 1, 1⟩ 7 = Element.Background ∧
    GameGrid.set_index ⟨[Element.Sand], 1, 1⟩ 7 Element.Fire = ⟨[Element.Sand], 1, 1⟩ :=
  c6_oob_neutral ⟨[Element.Sand], 1, 1⟩ 5 0 7 Element.Water Element.Fire
    (Or.inl (by decide)) (by decide)

/-- Claim C8: when the file is missing (`none`) or its bytes fail to
deserialize, the load path returns the live grid unchanged; the grid is
replaced only by a full successful decode. -/
theorem c8_failed_load_noop (current : GameGrid) (fileData : Option (List Nat))
    (h : ∀ d, fileData = some d → deserializeGrid d = none) :
    handleLoad current fileData = current := by
  cases fileData with
  | none => rfl
  | some d => simp [handleLoad, h d rfl]

/-- Witness for C8: a missing file and an undecodable byte list both leave
a concrete grid unchanged. -/
theorem c8_failed_load_noop_witness :
    handleLoad ⟨[Element.Sand], 1, 1⟩ (some [5]) = ⟨[Element.Sand], 1, 1⟩ :=
  c8_failed_load_noop ⟨[Element.Sand], 1, 1⟩ (some [5]) (by intro d hd; cases hd; rfl)

theorem count_set_add (l : List Element) (n : Nat) (a x : Element) (hn : n < l.length) :
    ((l.set n a).count x) + (if l.getD n Element.Background = x then 1 else 0) =
      l.count x + (if a = x then 1 else 0) := by
  induction l generalizing n with
  | nil => simp at hn
  | cons hd tl ih =>
    cases n with
    | zero =>
      simp only [List.set_cons_zero, List.getD_cons_zero, List.count_cons]
      by_cases hhd : hd = x <;> by_cases ha : a = x <;>
        simp [hhd, ha]
    | succ m =>
      simp only [List.set_cons_succ, List.getD_cons_succ, List.count_cons]
      have hm : m < tl.length := by simp at hn; omega
      have := ih m hm
      omega

theorem count_swap (l : List Element) (i j : Nat) (hi : i < l.length)
    (hj : j < l.length) (x : Element) :
    ((l.set j (l.getD i Element.Background)).set i
        (l.getD j Element.Background)).count x = l.count x := by
  have hlen1 : (l.set j (l.getD i Element.Background)).length = l.length :=
    List.length_set ..
  have hi' : i < (l.set j (l.getD i Element.Background)).length := by omega
  have h1 := count_set_add (l.set j (l.getD i Element.Background)) i
    (l.getD j Element.Background) x hi'
  have h2 := count_set_add l j (l.getD i Element.Background) x hj
  have hgd : (l.set j (l.getD i Element.Background)).getD i Element.Background =
      l.getD i Element.Background := by
    by_cases hij : i = j
    · subst hij
      rw [List.getD_eq_getElem _ _ hi']
      exact List.getElem_set_self _
    · calc (l.set j (l.getD i Element.Background)).getD i Element.Background
          = (l.set j (l.getD i Element.Background))[i] :=
            List.getD_eq_getElem _ _ hi'
      _ = l[i] := List.getElem_set_ne (Ne.symm hij) _
      _ = l.getD i Element.Background := (List.getD_eq_getElem _ _ hi).symm
  rw [hgd] at h1
  omega

theorem set_index_swap_count (g : GameGrid) (i j : Nat)
    (hi : i < g.elements.length) (hj : j < g.elements.length) :
    (((g.set_index j (g.get_index i)).set_index i (g.get_index j)).elements :
        Multiset Element) = (g.elements : Multiset Element) := by
  have hgi : g.get_index i = g.elements.getD i Element.Background := by
    unfold GameGrid.get_index; rw [if_neg (by omega)]
  have hgj : g.get_index j = g.elements.getD j Element.Background := by
    unfold GameGrid.get_index; rw [if_neg (by omega)]
  have hs1 : g.set_index j (g.get_index i) =
      { g with elements := g.elements.set j (g.get_index i) } := by
    unfold GameGrid.set_index; rw [if_neg (by omega)]
  have hlen1 : (g.set_index j (g.get_index i)).elements.length =
      g.elements.length := by rw [hs1]; simp
  rw [hs1]
  have hcond : ¬ (i ≥ (({ g with elements := g.elements.set j (g.get_index i) } :
      GameGrid)).elements.length) := by
    simp only [List.length_set]
    omega
  unfold GameGrid.set_index
  rw [if_neg hcond]
  rw [Multiset.coe_eq_coe, List.perm_iff_count]
  intro x
  rw [hgi, hgj]
  exact count_swap g.elements i j hi hj x

theorem below_spec {g : GameGrid} {y i : Nat} {t : Element} {j : Nat}
    (h : below g y i t = some j) :
    g.get_index j = t ∧ j < g.elements.length := by
  unfold below at h
  split at h
  · exact absurd h (by simp)
  · simp only [] at h
    split at h
    · rename_i hcond
      cases h
      exact ⟨hcond.2, hcond.1⟩
    · exact absurd h (by simp)

theorem below_adjacent_spec {g : GameGrid} {x y i : Nat} {t : Element} {j : Nat}
    (h : below_adjacent g x y i t = some j) :
    g.get_index j = t ∧ j < g.elements.length := by
  unfold below_adjacent at h
  split at h
  · exact absurd h (by simp)
  · simp only [] at h
    split at h
    · rename_i hcond
      cases h
      exact ⟨hcond.2, hcond.1⟩
    · split at h
      · rename_i hcond
        cases h
        exact ⟨hcond.2.2, hcond.2.1⟩
      · split at h
        · rename_i hcond
          cases h
          exact ⟨hcond.2.2, hcond.2.1⟩
        · exact absurd h (by simp)

theorem pick_rand_valid_spec {a b : Option Nat} {r : RState} {j : Nat} {r' : RState}
    (h : pick_rand_valid a b r = (some j, r')) : a = some j ∨ b = some j := by
  unfold pick_rand_valid at h
  cases a with
  | none =>
    cases b with
    | none => simp at h
    | some bv => simp at h; exact Or.inr (by rw [h.1])
  | some av =>
    cases b with
    | none => simp at h; exact Or.inl (by rw [h.1])
    | some bv =>
      cases hgb : genBool ⟨1, 2⟩ r with
      | mk c r1 =>
        rw [hgb] at h
        cases c
        · simp at h; exact Or.inr (by rw [h.1])
        · simp at h; exact Or.inl (by rw [h.1])

theorem adjacent_spec {g : GameGrid} {x i : Nat} {t : Element} {r : RState}
    {j : Nat} {r' : RState} (h : adjacent g x i t r = (some j, r')) :
    g.get_index j = t ∧ ((j = i - 1 ∧ 0 < x) ∨ (j = i + 1 ∧ x < g.max_x)) := by
  unfold adjacent at h
  have hp := pick_rand_valid_spec h
  rcases hp with hl | hr
  · by_cases hc : 0 < x ∧ g.get_index (i - 1) = t
    · rw [if_pos hc] at hl
      cases hl
      exact ⟨hc.2, Or.inl ⟨rfl, hc.1⟩⟩
    · rw [if_neg hc] at hl
      cases hl
  · by_cases hc : x < g.max_x ∧ g.get_index (i + 1) = t
    · rw [if_pos hc] at hr
      cases hr
      exact ⟨hc.2, Or.inr ⟨rfl, hc.1⟩⟩
    · rw [if_neg hc] at hr
      cases hr

theorem sameContent_refl (g : GameGrid) : sameContent g g := ⟨rfl, rfl, rfl⟩

theorem sameContent_trans {g1 g2 g3 : GameGrid}
    (h12 : sameContent g1 g2) (h23 : sameContent g2 g3) : sameContent g1 g3 :=
  ⟨h12.1.trans h23.1, h12.2.1.trans h23.2.1, h12.2.2.trans h23.2.2⟩

theorem sameContent_length {g' g : GameGrid} (h : sameContent g' g) :
    g'.elements.length = g.elements.length := by
  have := congrArg Multiset.card h.1
  simpa using this

theorem sameContent_mem {g' g : GameGrid} (h : sameContent g' g) {e : Element} :
    e ∈ g'.elements ↔ e ∈ g.elements := by
  constructor <;> intro hm
  · have : e ∈ (g'.elements : Multiset Element) := by simpa using hm
    rw [h.1] at this; simpa using this
  · have : e ∈ (g.elements : Multiset Element) := by simpa using hm
    rw [← h.1] at this; simpa using this

theorem set_index_width (g : GameGrid) (i : Nat) (e : Element) :
    (g.set_index i e).width = g.width := by
  unfold GameGrid.set_index; split <;> rfl

theorem set_index_height (g : GameGrid) (i : Nat) (e : Element) :
    (g.set_index i e).height = g.height := by
  unfold GameGrid.set_index; split <;> rfl

theorem idx_lt_len {w h x y : Nat} (hx : x < w) (hy : y < h) : y * w + x < w * h := by
  calc y * w + x < y * w + w := by omega
  _ = (y + 1) * w := by ring
  _ ≤ h * w := Nat.mul_le_mul_right w hy
  _ = w * h := Nat.mul_comm h w

theorem move_sameContent (g : GameGrid) (i j : Nat) (t : Element)
    (hi : i < g.elements.length) (hj : j < g.elements.length)
    (ht : g.get_index j = t) :
    sameContent ((g.set_index j (g.get_index i)).set_index i t) g := by
  subst ht
  refine ⟨set_index_swap_count g i j hi hj, ?_, ?_⟩
  · rw [set_index_width, set_index_width]
  · rw [set_index_height, set_index_height]

theorem do_gravity_conserves (g : GameGrid) (x y i : Nat) (fa : Bool) (ch : Chance)
    (r : RState) (hx : x < g.width) (hy : y < g.height) (hi : i = y * g.width + x)
    (hlen : g.elements.length = g.width * g.height) :
    sameContent (do_gravity g x y i fa ch false r).1 g := by
  have hilen : i < g.elements.length := by
    rw [hlen, hi]; exact idx_lt_len hx hy
  unfold do_gravity
  cases hgb : genBool ch r with
  | mk c r1 =>
    cases c
    case false => exact sameContent_refl g
    case true =>
      simp only [Bool.not_true]
      rw [if_neg (by decide : ¬ (false = true))]
      split
      · exact sameContent_refl g
      · cases hfirst : (if fa then below_adjacent g x y i Element.Background
            else below g y i Element.Background) with
        | some v =>
          simp only [hfirst]
          have hspec : g.get_index v = Element.Background ∧ v < g.elements.length := by
            rcases fa with _ | _
            · simp only [Bool.false_eq_true, if_false] at hfirst
              exact below_spec hfirst
            · simp only [if_true] at hfirst
              exact below_adjacent_spec hfirst
          exact move_sameContent g i v Element.Background hilen hspec.2 hspec.1
        | none =>
          simp only [hfirst]
          rcases fa with _ | _
          · exact sameContent_refl g
          · cases hadj : adjacent g x i Element.Background r1 with
            | mk oj r2 =>
              simp only [if_true, hadj]
              cases oj with
              | none => exact sameContent_refl g
              | some j =>
                have hspec := adjacent_spec hadj
                have hjlen : j < g.elements.length := by
                  rcases hspec.2 with ⟨hj1, _⟩ | ⟨hj1, hj2⟩
                  · omega
                  · subst hj1
                    have hx1 : x + 1 < g.width := by
                      unfold GameGrid.max_x at hj2; omega
                    rw [hlen, hi]
                    have harith : y * g.width + x + 1 = y * g.width + (x + 1) := by ring
                    rw [harith]
                    exact idx_lt_len hx1 hy
                exact move_sameContent g i j Element.Background hilen hjlen hspec.1

theorem do_density_sink_conserves (g : GameGrid) (x y i : Nat) (lt : Element)
    (sa : Bool) (ch : Chance) (r : RState) (hx : x < g.width) (hy : y < g.height)
    (hi : i = y * g.width + x) (hlen : g.elements.length = g.width * g.height) :
    sameContent (do_density_sink g x y i lt sa ch r).1 g := by
  have hilen : i < g.elements.length := by
    rw [hlen, hi]; exact idx_lt_len hx hy
  unfold do_density_sink
  cases hgb : genBool ch r with
  | mk c r1 =>
    cases c
    case false => exact sameContent_refl g
    case true =>
      simp only [Bool.not_true]
      rw [if_neg (by decide : ¬ (false = true))]
      split
      · exact sameContent_refl g
      · cases hfirst : (if sa then below_adjacent g x y i lt else below g y i lt) with
        | some v =>
          simp only [hfirst]
          have hspec : g.get_index v = lt ∧ v < g.elements.length := by
            rcases sa with _ | _
            · simp only [Bool.false_eq_true, if_false] at hfirst
              exact below_spec hfirst
            · simp only [if_true] at hfirst
              exact below_adjacent_spec hfirst
          exact move_sameContent g i v lt hilen hspec.2 hspec.1
        | none =>
          simp only [hfirst]
          exact sameContent_refl g

theorem do_density_liquid_conserves (g : GameGrid) (x y i : Nat) (ht : Element)
    (ch1 ch2 : Chance) (r : RState) (hx : x < g.width) (hy : y < g.height)
    (hi : i = y * g.width + x) (hlen : g.elements.length = g.width * g.height) :
    sameContent (do_density_liquid g x y i ht ch1 ch2 r).1 g := by
  have hilen : i < g.elements.length := by
    rw [hlen, hi]; exact idx_lt_len hx hy
  have hadjcase : ∀ (r2 : RState),
      sameContent ((match (adjacent g x i ht r2).1 with
        | some new_idx =>
          ((g.set_index new_idx (g.get_index i)).set_index i ht, true,
            (adjacent g x i ht r2).2)
        | none => (g, false, (adjacent g x i ht r2).2)) :
          GameGrid × Bool × RState).1 g := by
    intro r2
    cases hadj : adjacent g x i ht r2 with
    | mk oj r3 =>
      simp only [hadj]
      cases oj with
      | none => exact sameContent_refl g
      | some j =>
        have hspec := adjacent_spec hadj
        have hjlen : j < g.elements.length := by
          rcases hspec.2 with ⟨hj1, _⟩ | ⟨hj1, hj2⟩
          · omega
          · subst hj1
            have hx1 : x + 1 < g.width := by
              unfold GameGrid.max_x at hj2; omega
            rw [hlen, hi]
            have harith : y * g.width + x + 1 = y * g.width + (x + 1) := by ring
            rw [harith]
            exact idx_lt_len hx1 hy
        exact move_sameContent g i j ht hilen hjlen hspec.1
  unfold do_density_liquid
  cases hgb : genBool ch1 r with
  | mk c1 r1 =>
    cases c1
    case false =>
      simp only [Bool.false_eq_true, if_false]
      cases hgb2 : genBool ch2 r1 with
      | mk c2 r2 =>
        cases c2
        case false => exact sameContent_refl g
        case true =>
          simp only [if_true]
          exact hadjcase r2
    case true =>
      simp only [if_true]
      cases hfirst : below_adjacent g x y i ht with
      | some v =>
        simp only [hfirst]
        have hspec := below_adjacent_spec hfirst
        exact move_sameContent g i v ht hilen hspec.2 hspec.1
      | none =>
        simp only [hfirst]
        cases hgb2 : genBool ch2 r1 with
        | mk c2 r2 =>
          cases c2
          case false => exact sameContent_refl g
          case true =>
            simp only [if_true]
            exact hadjcase r2

theorem sameContent_consist {g1 g : GameGrid} {x y i : Nat} (h : sameContent g1 g)
    (hx : x < g.width) (hy : y < g.height) (hi : i = y * g.width + x)
    (hlen : g.elements.length = g.width * g.height) :
    x < g1.width ∧ y < g1.height ∧ i = y * g1.width + x ∧
    g1.elements.length = g1.width * g1.height := by
  obtain ⟨hm, hw, hh⟩ := h
  refine ⟨hw ▸ hx, hh ▸ hy, by rw [hw]; exact hi, ?_⟩
  rw [sameContent_length ⟨hm, hw, hh⟩, hw, hh]
  exact hlen

theorem sandAction_conserves (g : GameGrid) (x y i : Nat) (r : RState)
    (hx : x < g.width) (hy : y < g.height) (hi : i = y * g.width + x)
    (hlen : g.elements.length = g.width * g.height) :
    sameContent (sandAction g x y i false r).1 g := by
  unfold sandAction
  split
  · cases hds1 : do_density_sink g x y i Element.Water true ⟨25, 100⟩ r with
    | mk g1 p1 =>
      cases p1 with
      | mk b1 r1 =>
        have hc1 : sameContent g1 g := by
          have hh := do_density_sink_conserves g x y i Element.Water true ⟨25, 100⟩ r
            hx hy hi hlen
          rw [hds1] at hh
          exact hh
        cases b1
        case true =>
          simp only [hds1]
          exact hc1
        case false =>
          simp only [hds1]
          obtain ⟨hx1, hy1, hi1, hlen1⟩ := sameContent_consist hc1 hx hy hi hlen
          cases hds2 : do_density_sink g1 x y i Element.SaltWater true ⟨25, 100⟩ r1 with
          | mk g2 p2 =>
            cases p2 with
            | mk b2 r2 =>
              have hc2 : sameContent g2 g1 := by
                have hh := do_density_sink_conserves g1 x y i Element.SaltWater true
                  ⟨25, 100⟩ r1 hx1 hy1 hi1 hlen1
                rw [hds2] at hh
                exact hh
              cases b2
              case true =>
                simp only [hds2]
                exact sameContent_trans hc2 hc1
              case false =>
                simp only [hds2]
                obtain ⟨hx2, hy2, hi2, hlen2⟩ := sameContent_consist hc2 hx1 hy1 hi1 hlen1
                cases hdg : do_gravity g2 x y i true ⟨95, 100⟩ false r2 with
                | mk g3 p3 =>
                  have hc3 : sameContent g3 g2 := by
                    have hh := do_gravity_conserves g2 x y i true ⟨95, 100⟩ r2
                      hx2 hy2 hi2 hlen2
                    rw [hdg] at hh
                    exact hh
                  simp only [hdg]
                  exact sameContent_trans hc3 (sameContent_trans hc2 hc1)
  · cases hdg : do_gravity g x y i true ⟨95, 100⟩ false r with
    | mk g3 p3 =>
      have hc3 : sameContent g3 g := by
        have hh := do_gravity_conserves g x y i true ⟨95, 100⟩ r hx hy hi hlen
        rw [hdg] at hh
        exact hh
      simp only [hdg]
      exact hc3

theorem waterAction_conserves (g : GameGrid) (x y i : Nat) (r : RState)
    (hx : x < g.width) (hy : y < g.height) (hi : i = y * g.width + x)
    (hlen : g.elements.length = g.width * g.height) :
    sameContent (waterAction g x y i false r).1 g := by
  unfold waterAction
  cases hdl : do_density_liquid g x y i Element.Oil ⟨25, 100⟩ ⟨50, 100⟩ r with
  | mk g1 p1 =>
    cases p1 with
    | mk b1 r1 =>
      have hc1 : sameContent g1 g := by
        have hh := do_density_liquid_conserves g x y i Element.Oil ⟨25, 100⟩ ⟨50, 100⟩ r
          hx hy hi hlen
        rw [hdl] at hh
        exact hh
      cases b1
      case true =>
        simp only [hdl]
        exact hc1
      case false =>
        simp only [hdl]
        obtain ⟨hx1, hy1, hi1, hlen1⟩ := sameContent_consist hc1 hx hy hi hlen
        cases hdg : do_gravity g1 x y i true ⟨95, 100⟩ false r1 with
        | mk g2 p2 =>
          have hc2 : sameContent g2 g1 := by
            have hh := do_gravity_conserves g1 x y i true ⟨95, 100⟩ r1 hx1 hy1 hi1 hlen1
            rw [hdg] at hh
            exact hh
          simp only [hdg]
          exact sameContent_trans hc2 hc1

theorem above_none_of_not_mem (g : GameGrid) (y i : Nat) (t : Element)
    (htb : t ≠ Element.Background) (hmem : t ∉ g.elements) :
    above g y i t = none := by
  unfold above
  split
  · rfl
  · simp only []
    split
    · rename_i hget
      exfalso
      unfold GameGrid.get_index at hget
      split at hget
      · exact htb hget.symm
      · rename_i hlt
        apply hmem
        rw [← hget]
        have hbound : i - g.width < g.elements.length := by omega
        rw [List.getD_eq_getElem _ _ hbound]
        exact List.getElem_mem _
    · rfl

theorem sameContent_pure {g1 g : GameGrid} (h : sameContent g1 g)
    (hS : ∀ e ∈ g.elements, pureMoveElem e) : ∀ e ∈ g1.elements, pureMoveElem e := by
  intro e he
  exact hS e ((sameContent_mem h).mp he)

theorem rockTail_conserves (g : GameGrid) (x y i : Nat) (r : RState)
    (hx : x < g.width) (hy : y < g.height) (hi : i = y * g.width + x)
    (hlen : g.elements.length = g.width * g.height)
    (hS : ∀ e ∈ g.elements, pureMoveElem e) :
    sameContent (rockAction.rockGravityAndMethane g x y i false r).1 g := by
  unfold rockAction.rockGravityAndMethane
  cases hdg : do_gravity g x y i false ⟨99, 100⟩ false r with
  | mk g1 p1 =>
    cases p1 with
    | mk b1 r1 =>
      have hc1 : sameContent g1 g := by
        have hh := do_gravity_conserves g x y i false ⟨99, 100⟩ r hx hy hi hlen
        rw [hdg] at hh
        exact hh
      simp only [hdg]
      have hnoOil : above g1 y i Element.Oil = none := by
        apply above_none_of_not_mem g1 y i Element.Oil (by decide)
        intro hmem
        have := sameContent_pure hc1 hS Element.Oil hmem
        rcases this with h | h | h | h <;> exact absurd h (by decide)
      cases hgb1 : genBool ⟨1, 100⟩ r1 with
      | mk c1 r2 =>
        cases c1
        case false =>
          simp only [Bool.false_eq_true, if_false, false_and]
          exact hc1
        case true =>
          cases hgb2 : genBool ⟨20, 100⟩ r2 with
          | mk c2 r3 =>
            cases c2
            case false =>
              simp only [hgb2, eq_self_iff_true, if_true, Bool.false_eq_true,
                if_false, and_false, false_and, true_and, and_true]
              exact hc1
            case true =>
              simp only [hgb2, eq_self_iff_true, if_true, and_self, hnoOil]
              exact hc1

theorem rockAction_conserves (g : GameGrid) (x y i : Nat) (r : RState)
    (hx : x < g.width) (hy : y < g.height) (hi : i = y * g.width + x)
    (hlen : g.elements.length = g.width * g.height)
    (hS : ∀ e ∈ g.elements, pureMoveElem e) :
    sameContent (rockAction g x y i false r).1 g := by
  unfold rockAction
  split
  · cases hds1 : do_density_sink g x y i Element.Water false ⟨95, 100⟩ r with
    | mk g1 p1 =>
      cases p1 with
      | mk b1 r1 =>
        have hc1 : sameContent g1 g := by
          have hh := do_density_sink_conserves g x y i Element.Water false ⟨95, 100⟩ r
            hx hy hi hlen
          rw [hds1] at hh
          exact hh
        cases b1
        case true =>
          simp only [hds1]
          exact hc1
        case false =>
          simp only [hds1]
          obtain ⟨hx1, hy1, hi1, hlen1⟩ := sameContent_consist hc1 hx hy hi hlen
          cases hds2 : do_density_sink g1 x y i Element.Oil false ⟨95, 100⟩ r1 with
          | mk g2 p2 =>
            cases p2 with
            | mk b2 r2 =>
              have hc2 : sameContent g2 g1 := by
                have hh := do_density_sink_conserves g1 x y i Element.Oil false
                  ⟨95, 100⟩ r1 hx1 hy1 hi1 hlen1
                rw [hds2] at hh
                exact hh
              cases b2
              case true =>
                simp only [hds2]
                exact sameContent_trans hc2 hc1
              case false =>
                simp only [hds2]
                obtain ⟨hx2, hy2, hi2, hlen2⟩ := sameContent_consist hc2 hx1 hy1 hi1 hlen1
                have hS2 : ∀ e ∈ g2.elements, pureMoveElem e :=
                  sameContent_pure (sameContent_trans hc2 hc1) hS
                have hh := rockTail_conserves g2 x y i r2 hx2 hy2 hi2 hlen2 hS2
                exact sameContent_trans hh (sameContent_trans hc2 hc1)
  · exact rockTail_conserves g x y i r hx hy hi hlen hS

theorem get_index_mem_or_bg (g : GameGrid) (i : Nat) :
    g.get_index i = Element.Background ∨ g.get_index i ∈ g.elements := by
  unfold GameGrid.get_index
  split
  · exact Or.inl rfl
  · rename_i hlt
    right
    have hb : i < g.elements.length := by omega
    rw [List.getD_eq_getElem _ _ hb]
    exact List.getElem_mem _

theorem executeElementAction_conserves (g : GameGrid) (x y i : Nat) (r : RState)
    (hx : x < g.width) (hy : y < g.height) (hi : i = y * g.width + x)
    (hlen : g.elements.length = g.width * g.height)
    (hS : ∀ e ∈ g.elements, pureMoveElem e) :
    sameContent (executeElementAction g x y i false r).1 g := by
  unfold executeElementAction
  cases hge : g.get_index i
  case Background => exact sameContent_refl g
  case Wall => exact sameContent_refl g
  case Sand => exact sandAction_conserves g x y i r hx hy hi hlen
  case Water => exact waterAction_conserves g x y i r hx hy hi hlen
  case Rock => exact rockAction_conserves g x y i r hx hy hi hlen hS
  case Fire =>
    exfalso
    rcases get_index_mem_or_bg g i with hbg | hmem
    · rw [hge] at hbg
      exact absurd hbg (by decide)
    · rw [hge] at hmem
      rcases hS Element.Fire hmem with h | h | h | h <;> exact absurd h (by decide)
  all_goals exact sameContent_refl g

theorem simStep_conserves (g0 : GameGrid) (acc : GameGrid × RState) (x y : Nat)
    (hx : x ≤ g0.width - 1) (hy : y ≤ g0.height - 1)
    (hlen0 : g0.elements.length = g0.width * g0.height)
    (hS0 : ∀ e ∈ g0.elements, pureMoveElem e)
    (hsc : sameContent acc.1 g0) :
    sameContent (simStep false acc (x, y)).1 g0 := by
  rcases acc with ⟨g, r⟩
  unfold simStep
  simp only []
  split
  · exact hsc
  · rename_i hne
    have hlen : g.elements.length = g.width * g.height := by
      rw [sameContent_length hsc, hsc.2.1, hsc.2.2]
      exact hlen0
    have hilen : g.xy_to_index x y < g.elements.length := by
      by_contra hge
      apply hne
      unfold GameGrid.get_index
      rw [if_pos (by omega)]
    have hpos : 0 < g.width ∧ 0 < g.height := by
      rcases Nat.eq_zero_or_pos g.width with hw0 | hwp
      · exfalso
        have : g.elements.length = 0 := by rw [hlen, hw0]; ring
        omega
      · rcases Nat.eq_zero_or_pos g.height with hh0 | hhp
        · exfalso
          have : g.elements.length = 0 := by rw [hlen, hh0]; ring
          omega
        · exact ⟨hwp, hhp⟩
    have hweq : g.width = g0.width := hsc.2.1
    have hheq : g.height = g0.height := hsc.2.2
    have hx' : x < g.width := by omega
    have hy' : y < g.height := by omega
    have hS : ∀ e ∈ g.elements, pureMoveElem e := by
      intro e he
      exact hS0 e ((sameContent_mem hsc).mp he)
    have hmain := executeElementAction_conserves g x y (g.xy_to_index x y) r
      hx' hy' rfl hlen hS
    exact sameContent_trans hmain hsc

theorem foldl_conserves (g0 : GameGrid)
    (hlen0 : g0.elements.length = g0.width * g0.height)
    (hS0 : ∀ e ∈ g0.elements, pureMoveElem e) :
    ∀ (l : List (Nat × Nat)) (acc : GameGrid × RState),
    (∀ p ∈ l, p.1 ≤ g0.width - 1 ∧ p.2 ≤ g0.height - 1) →
    sameContent acc.1 g0 →
    sameContent (l.foldl (simStep false) acc).1 g0 := by
  intro l
  induction l with
  | nil => intro acc _ hsc; exact hsc
  | cons p tl ih =>
    intro acc hp hsc
    rw [List.foldl_cons]
    rcases p with ⟨x, y⟩
    have hstep := simStep_conserves g0 acc x y (hp (x, y) (by simp)).1
      (hp (x, y) (by simp)).2 hlen0 hS0 hsc
    exact ih (simStep false acc (x, y))
      (fun q hq => hp q (List.mem_cons_of_mem _ hq)) hstep

theorem scanOrder_bounds {w h : Nat} : ∀ p ∈ scanOrder w h,
    p.1 ≤ w - 1 ∧ p.2 ≤ h - 1 := by
  intro p hp
  unfold scanOrder at hp
  simp only [List.mem_flatMap, List.mem_reverse, List.mem_range] at hp
  obtain ⟨y, hy, hpin⟩ := hp
  split at hpin <;>
  · simp only [List.mem_map, List.mem_reverse, List.mem_range] at hpin
    obtain ⟨x, hx, hpx⟩ := hpin
    subst hpx
    constructor <;> simp <;> omega

/-- Claim C1: on any grid whose cells are only sand, water, rock and
background (the pure-movement fragment), one full bottom-to-top scan with
`fall_into_void = false` preserves the multiset of non-background element
tags under every random outcome: tags only relocate. -/
theorem c1_conservation (g : GameGrid) (r : RState)
    (hlen : g.elements.length = g.width * g.height)
    (hS : ∀ e ∈ g.elements, e = Element.Background ∨ e = Element.Sand ∨
      e = Element.Water ∨ e = Element.Rock) :
    Multiset.filter (fun e => e ≠ Element.Background)
      ((simulationTick g false r).1.elements : Multiset Element) =
    Multiset.filter (fun e => e ≠ Element.Background)
      (g.elements : Multiset Element) := by
  have h := foldl_conserves g hlen hS (scanOrder g.width g.height) (g, r)
    scanOrder_bounds (sameContent_refl g)
  exact congrArg (Multiset.filter (fun e => e ≠ Element.Background)) h.1

/-- Witness for C1 at a concrete 2x2 mixed grid with the all-true oracle. -/
theorem c1_conservation_witness :
    smallMixGrid.elements.length = smallMixGrid.width * smallMixGrid.height ∧
    Multiset.filter (fun e => e ≠ Element.Background)
      ((simulationTick smallMixGrid false allTrue).1.elements : Multiset Element) =
    Multiset.filter (fun e => e ≠ Element.Background)
      (smallMixGrid.elements : Multiset Element) :=
  ⟨by decide, c1_conservation smallMixGrid allTrue (by decide) (by decide)⟩

/-- Claim C5: `make_particle_inactive` resets the deactivated slot to the
default particle (every archetype field cleared), and a slot reactivated
by `add_active_particle` holds exactly the fresh particle determined by
the new archetype and spawn arguments alone, independent of the previous
occupant. -/
theorem c5_deactivation_resets :
    (∀ (pl : ParticleList) (idx : Nat), idx < pl.particles.length →
      (pl.particles.getD idx Particle.new).active = true →
      (pl.make_particle_inactive idx).particles.getD idx Particle.new = Particle.new) ∧
    (∀ (pl : ParticleList) (t : ParticleType) (x y : ℚ) (gi idx : Nat)
      (pl' : ParticleList), pl.add_active_particle t x y gi = (some idx, pl') →
      idx < pl.particles.length →
      pl'.particles.getD idx Particle.new = freshParticle t x y gi) := by
  constructor
  · intro pl idx hlt hact
    unfold ParticleList.make_particle_inactive
    simp only [hact, Bool.not_true, Bool.false_eq_true, if_false]
    have hlt' : idx < (pl.particles.set idx
        (pl.particles.getD idx Particle.new).reset).length := by
      simp only [List.length_set]
      exact hlt
    rw [List.getD_eq_getElem _ _ hlt']
    rw [List.getElem_set_self]
    rfl
  · intro pl t x y gi idx pl' h hlt
    unfold ParticleList.add_active_particle at h
    by_cases hemp : pl.inactive_indices.isEmpty
    · rw [if_pos hemp] at h
      exact absurd (congrArg Prod.fst h) (by simp)
    · rw [if_neg hemp] at h
      simp only [Prod.mk.injEq, Option.some.injEq] at h
      obtain ⟨hidx, hpl⟩ := h
      subst hpl
      subst hidx
      simp only []
      have hlt' : pl.inactive_indices.getLastD 0 < (pl.particles.set
          (pl.inactive_indices.getLastD 0)
          ((pl.particles.getD (pl.inactive_indices.getLastD 0) Particle.new).reset)).length := by
        simp only [List.length_set]
        exact hlt
      rw [List.getD_eq_getElem _ _ (by simpa using hlt)]
      rw [List.getElem_set_self]
      rfl

/-- Witness for C5 at a one-slot pool and a dirty slot reactivated as a
tree particle. -/
theorem c5_deactivation_resets_witness :
    ((onePool.make_particle_inactive 0).particles.getD 0 Particle.new = Particle.new) ∧
    ((dirtyPool.add_active_particle ParticleType.Tree 0 0 7).2.particles.getD 0 Particle.new
      = freshParticle ParticleType.Tree 0 0 7) :=
  ⟨c5_deactivation_resets.1 onePool 0 (by decide) (by decide),
   c5_deactivation_resets.2 dirtyPool ParticleType.Tree 0 0 7 0
     (dirtyPool.add_active_particle ParticleType.Tree 0 0 7).2 rfl (by decide)⟩

/-- Claim C9: a grid-hosted branch whose next step lands on a wall cell is
removed that tick with the grid untouched, and a particle-hosted tree
whose probe point half the branch width ahead is a wall is deactivated
that tick without spawning a child or stamping any cell. -/
theorem c9_wall_stops_growth :
    (∀ (g : GameGrid) (b : TreeBranch) (rnd : BranchStepRand),
      ¬(b.x + rnd.dx < 0 ∨ b.x + rnd.dx ≥ (g.width : ℚ) ∨
        b.y + rnd.dy < 0 ∨ b.y + rnd.dy ≥ (g.height : ℚ)) →
      g.xy_to_index (b.x + rnd.dx).floor.toNat (b.y + rnd.dy).floor.toNat <
        g.elements.length →
      g.get_index (g.xy_to_index (b.x + rnd.dx).floor.toNat
        (b.y + rnd.dy).floor.toNat) = Element.Wall →
      treeBranchStep g b rnd = (g, none, [])) ∧
    (∀ (p0 : Particle) (pl : ParticleList) (g : GameGrid) (rnd : TreeActionRand),
      ¬(p0.x + p0.x_velocity < 0 ∨ p0.x + p0.x_velocity > (g.width : ℚ) ∨
        p0.y + p0.y_velocity < 0 ∨ p0.y + p0.y_velocity > (g.height : ℚ)) →
      ((qRound ((p0.x + p0.x_velocity) + rnd.probeCos * (p0.size / 2))).toNat +
        (qRound ((p0.y + p0.y_velocity) + rnd.probeSin * (p0.size / 2))).toNat * g.width <
          g.elements.length ∧
       g.get_index ((qRound ((p0.x + p0.x_velocity) + rnd.probeCos * (p0.size / 2))).toNat +
        (qRound ((p0.y + p0.y_velocity) + rnd.probeSin * (p0.size / 2))).toNat * g.width) =
          Element.Wall) →
      (treeParticleAction p0 pl g rnd).1 = true ∧
      (treeParticleAction p0 pl g rnd).2.2 = pl) := by
  constructor
  · intro g b rnd hin hidx hwall
    unfold treeBranchStep
    dsimp only []
    rw [if_neg hin, if_neg (by omega), if_pos hwall]
  · intro p0 pl g rnd hoff hprobe
    unfold treeParticleAction Particle.off_canvas
    dsimp only []
    rw [if_neg hoff, if_pos hprobe]
    exact ⟨rfl, rfl⟩

/-- Witness for C9: a concrete wall-bound branch and a concrete wall-bound
tree particle. -/
theorem c9_wall_stops_growth_witness :
    treeBranchStep wallGrid wallBoundBranch upStep = (wallGrid, none, []) ∧
    (treeParticleAction wallBoundParticle onePool wallGrid upProbe).1 = true ∧
    (treeParticleAction wallBoundParticle onePool wallGrid upProbe).2.2 = onePool := by
  have hq0 : qRound (0 : ℚ) = 0 := by
    unfold qRound
    rw [if_pos le_rfl]
    norm_num [Int.floor_eq_iff]
  have hf0 : Rat.floor 0 = 0 := rfl
  refine ⟨c9_wall_stops_growth.1 wallGrid wallBoundBranch upStep ?_ ?_ ?_,
    c9_wall_stops_growth.2 wallBoundParticle onePool wallGrid upProbe ?_ ?_⟩
  · norm_num [wallBoundBranch, upStep, wallGrid]
  · norm_num [wallBoundBranch, upStep, wallGrid, GameGrid.xy_to_index, hf0]
  · norm_num [wallBoundBranch, upStep, wallGrid, GameGrid.xy_to_index,
      GameGrid.get_index, hf0]
  · norm_num [wallBoundParticle, upProbe, wallGrid, Particle.new]
  · norm_num [wallBoundParticle, upProbe, wallGrid, Particle.new, hq0,
      GameGrid.get_index]

theorem getD_set_self' {α : Type} (l : List α) (k : Nat) (hk : k < l.length)
    (v d : α) : (l.set k v).getD k d = v := by
  rw [List.getD_eq_getElem _ _ (by simpa using hk)]
  exact List.getElem_set_self _

theorem getD_set_ne' {α : Type} (l : List α) (k m : Nat) (hne : m ≠ k)
    (v d : α) : (l.set k v).getD m d = l.getD m d := by
  by_cases hm : m < l.length
  · rw [List.getD_eq_getElem _ _ (by simpa using hm), List.getD_eq_getElem _ _ hm]
    exact List.getElem_set_ne (Ne.symm hne) _
  · rw [List.getD_eq_default _ _ (by simpa using not_lt.mp hm),
      List.getD_eq_default _ _ (not_lt.mp hm)]

theorem ptype_index_lt (t : ParticleType) : t.index < 11 := by
  cases t <;> decide

theorem ptype_index_inj {u v : ParticleType} (h : u.index = v.index) : u = v := by
  cases u <;> cases v <;> first | rfl | exact absurd h (by decide)

theorem add_on_empty (pl : ParticleList) (t : ParticleType) (x y : ℚ) (gi : Nat)
    (h : pl.inactive_indices = []) : pl.add_active_particle t x y gi = (none, pl) := by
  unfold ParticleList.add_active_particle
  rw [h]
  rfl

theorem wf_spawn_core (pl : ParticleList) (j : Nat) (p2 : Particle)
    (t : ParticleType) (hne : pl.inactive_indices ≠ [])
    (hj : j = pl.inactive_indices.getLast hne)
    (hwf : pl.wellFormed)
    (hp2act : p2.active = true)
    (hp2type : p2.particle_type = t) :
    ParticleList.wellFormed
      { particles := pl.particles.set j p2
        active_indices := pl.active_indices ++ [j]
        inactive_indices := pl.inactive_indices.dropLast
        particle_counts := pl.particle_counts.set t.index
          (pl.particle_counts.getD t.index 0 + 1) } := by
  obtain ⟨hnodA, hnodI, hbndA, hbndI, hactIff, hinactIff, hclen, hcounts⟩ := hwf
  have hdecomp : pl.inactive_indices.dropLast ++ [j] = pl.inactive_indices := by
    rw [hj]
    exact List.dropLast_append_getLast hne
  have hjmem : j ∈ pl.inactive_indices := by
    rw [hj]
    exact List.getLast_mem hne
  have hjlen : j < pl.particles.length := hbndI _ hjmem
  have hjact : (pl.particles.getD j Particle.new).active = false :=
    (hinactIff _ hjlen).mpr hjmem
  have hjnotA : j ∉ pl.active_indices := by
    intro hmem
    have := (hactIff _ hjlen).mpr hmem
    rw [this] at hjact
    exact absurd hjact (by decide)
  have hjnotDrop : j ∉ pl.inactive_indices.dropLast := by
    intro hmem
    have hnod := hnodI
    rw [← hdecomp] at hnod
    rw [List.nodup_append] at hnod
    exact hnod.2.2 hmem (by simp)
  refine ⟨?_, ?_, ?_, ?_, ?_, ?_, ?_, ?_⟩
  · exact List.Nodup.append hnodA (List.nodup_singleton _)
      (List.disjoint_singleton.mpr hjnotA)
  · exact (List.dropLast_sublist _).nodup hnodI
  · intro k hk
    simp only [List.length_set]
    rcases List.mem_append.mp hk with hk1 | hk1
    · exact hbndA k hk1
    · rw [List.mem_singleton.mp hk1]
      exact hjlen
  · intro k hk
    simp only [List.length_set]
    exact hbndI k ((List.dropLast_sublist _).subset hk)
  · intro k hk
    simp only [List.length_set] at hk
    by_cases hkj : k = j
    · subst hkj
      rw [getD_set_self' _ _ hjlen]
      simp [hp2act]
    · rw [getD_set_ne' _ _ _ hkj]
      rw [List.mem_append, List.mem_singleton]
      rw [hactIff k hk]
      simp [hkj]
  · intro k hk
    simp only [List.length_set] at hk
    by_cases hkj : k = j
    · subst hkj
      rw [getD_set_self' _ _ hjlen]
      rw [hp2act]
      constructor
      · intro hfalse
        exact absurd hfalse (by decide)
      · intro hmem
        exact absurd hmem hjnotDrop
    · rw [getD_set_ne' _ _ _ hkj]
      rw [hinactIff k hk]
      have hsplit : k ∈ pl.inactive_indices ↔
          k ∈ pl.inactive_indices.dropLast ∨ k = j := by
        rw [← hdecomp]
        simp [List.mem_append]
      rw [hsplit]
      simp [hkj]
  · simp only [List.length_set]
    exact hclen
  · intro u
    have hup2 : ((pl.particles.set j p2).getD j Particle.new).particle_type = u ↔
        t = u := by
      rw [getD_set_self' _ _ hjlen, hp2type]
    have hfilter : ((pl.active_indices ++ [j]).filter
        (fun k => decide (((pl.particles.set j p2).getD k Particle.new).particle_type
          = u))) =
        (pl.active_indices.filter
          (fun k => decide ((pl.particles.getD k Particle.new).particle_type = u))) ++
        (if t = u then [j] else []) := by
      rw [List.filter_append _ _]
      congr 1
      · apply List.filter_congr
        intro k hk
        have hkj : k ≠ j := fun hh => hjnotA (hh ▸ hk)
        rw [getD_set_ne' _ _ _ hkj]
      · by_cases htu : t = u
        · simp only [List.filter, getD_set_self' _ _ hjlen, hp2type, htu]
          simp
        · simp only [List.filter, getD_set_self' _ _ hjlen, hp2type]
          simp [htu]
    simp only []
    rw [hfilter, List.length_append]
    by_cases htu : t = u
    · subst htu
      rw [getD_set_self' _ _ (by rw [hclen]; exact ptype_index_lt t)]
      rw [hcounts t]
      simp
    · have hidx : u.index ≠ t.index := fun hh => htu (ptype_index_inj hh).symm
      rw [getD_set_ne' _ _ _ hidx]
      rw [hcounts u]
      simp [htu]

theorem wf_deact_core (pl : ParticleList) (idx : Nat) (hwf : pl.wellFormed)
    (hact : (pl.particles.getD idx Particle.new).active = true) :
    ParticleList.wellFormed
      { particles := pl.particles.set idx (pl.particles.getD idx Particle.new).reset
        active_indices := pl.active_indices.erase idx
        inactive_indices := pl.inactive_indices ++ [idx]
        particle_counts := pl.particle_counts.set
          (pl.particles.getD idx Particle.new).particle_type.index
          (pl.particle_counts.getD
            (pl.particles.getD idx Particle.new).particle_type.index 0 - 1) } := by
  obtain ⟨hnodA, hnodI, hbndA, hbndI, hactIff, hinactIff, hclen, hcounts⟩ := hwf
  have hlt : idx < pl.particles.length := by
    by_contra hge
    rw [List.getD_eq_default _ _ (not_lt.mp hge)] at hact
    exact absurd hact (by decide)
  have hmemA : idx ∈ pl.active_indices := (hactIff idx hlt).mp hact
  have hnotI : idx ∉ pl.inactive_indices := by
    intro hmem
    have := (hinactIff idx hlt).mpr hmem
    rw [hact] at this
    exact absurd this (by decide)
  refine ⟨?_, ?_, ?_, ?_, ?_, ?_, ?_, ?_⟩
  · exact hnodA.erase idx
  · exact List.Nodup.append hnodI (List.nodup_singleton _)
      (List.disjoint_singleton.mpr hnotI)
  · intro k hk
    simp only [List.length_set]
    exact hbndA k (List.erase_subset _ _ hk)
  · intro k hk
    simp only [List.length_set]
    rcases List.mem_append.mp hk with hk1 | hk1
    · exact hbndI k hk1
    · rw [List.mem_singleton.mp hk1]
      exact hlt
  · intro k hk
    simp only [List.length_set] at hk
    by_cases hkj : k = idx
    · subst hkj
      rw [getD_set_self' _ _ hlt]
      constructor
      · intro hfalse
        simp [Particle.reset] at hfalse
      · intro hmem
        exact absurd hmem (hnodA.not_mem_erase)
    · rw [getD_set_ne' _ _ _ hkj]
      rw [hactIff k hk, hnodA.mem_erase_iff]
      simp [hkj]
  · intro k hk
    simp only [List.length_set] at hk
    by_cases hkj : k = idx
    · subst hkj
      rw [getD_set_self' _ _ hlt]
      simp [Particle.reset]
    · rw [getD_set_ne' _ _ _ hkj]
      rw [hinactIff k hk, List.mem_append, List.mem_singleton]
      simp [hkj]
  · simp only [List.length_set]
    exact hclen
  · intro u
    have hfilter : ((pl.active_indices.erase idx).filter
        (fun k => decide (((pl.particles.set idx
          (pl.particles.getD idx Particle.new).reset).getD k Particle.new).particle_type
            = u))) =
        ((pl.active_indices.erase idx).filter
          (fun k => decide ((pl.particles.getD k Particle.new).particle_type = u))) := by
      apply List.filter_congr
      intro k hk
      have hkj : k ≠ idx := (hnodA.mem_erase_iff.mp hk).1
      rw [getD_set_ne' _ _ _ hkj]
    have hperm : (pl.active_indices.filter
        (fun k => decide ((pl.particles.getD k Particle.new).particle_type = u))).length =
        (if (pl.particles.getD idx Particle.new).particle_type = u then 1 else 0) +
        ((pl.active_indices.erase idx).filter
          (fun k => decide ((pl.particles.getD k Particle.new).particle_type = u))).length
        := by
      have hp := (List.perm_cons_erase hmemA).filter
        (fun k => decide ((pl.particles.getD k Particle.new).particle_type = u))
      rw [hp.length_eq, List.filter_cons]
      by_cases htu : (pl.particles.getD idx Particle.new).particle_type = u
      · rw [List.getD_eq_getElem?_getD] at htu
        simp [htu, Nat.add_comm]
      · rw [List.getD_eq_getElem?_getD] at htu
        simp [htu]
    simp only []
    rw [hfilter]
    by_cases htu : (pl.particles.getD idx Particle.new).particle_type = u
    · rw [← htu]
      rw [getD_set_self' _ _ (by rw [hclen]; exact ptype_index_lt _)]
      rw [hcounts]
      rw [htu] at hperm ⊢
      rw [hperm]
      simp [htu]
    · have hidx : u.index ≠ (pl.particles.getD idx Particle.new).particle_type.index :=
        fun hh => htu (ptype_index_inj hh).symm
      rw [getD_set_ne' _ _ _ hidx]
      rw [hcounts u, hperm]
      rw [if_neg htu]
      simp

theorem wf_add (pl : ParticleList) (t : ParticleType) (x y : ℚ) (gi : Nat)
    (hwf : pl.wellFormed) : (pl.add_active_particle t x y gi).2.wellFormed := by
  unfold ParticleList.add_active_particle
  by_cases hemp : pl.inactive_indices.isEmpty
  · rw [if_pos hemp]
    exact hwf
  · rw [if_neg hemp]
    have hne : pl.inactive_indices ≠ [] := fun hh => hemp (by simp [hh])
    have hjl : pl.inactive_indices.getLastD 0 = pl.inactive_indices.getLast hne := by
      rw [List.getLastD_eq_getLast? _ _, List.getLast?_eq_getLast _ hne]
      rfl
    exact wf_spawn_core pl _ _ t hne hjl hwf rfl rfl

theorem wf_deactivate (pl : ParticleList) (idx : Nat) (hwf : pl.wellFormed) :
    (pl.make_particle_inactive idx).wellFormed := by
  unfold ParticleList.make_particle_inactive
  cases hac : (pl.particles.getD idx Particle.new).active
  · simp only [hac, Bool.not_false, if_true]
    exact hwf
  · simp only [hac, Bool.not_true, Bool.false_eq_true, if_false]
    exact wf_deact_core pl idx hwf hac

set_option maxRecDepth 4000 in
theorem wf_default : ParticleList.default.wellFormed := by
  have hplen : ParticleList.default.particles.length = MAX_NUM_PARTICLES := by
    show (List.replicate MAX_NUM_PARTICLES Particle.new).length = MAX_NUM_PARTICLES
    rw [List.length_replicate]
  have hgetD : ∀ j, j < MAX_NUM_PARTICLES →
      ParticleList.default.particles.getD j Particle.new = Particle.new := by
    intro j hj
    show (List.replicate MAX_NUM_PARTICLES Particle.new).getD j Particle.new =
      Particle.new
    have hjb : j < (List.replicate MAX_NUM_PARTICLES Particle.new).length := by
      rw [List.length_replicate]
      exact hj

    rw [List.getD_eq_getElem _ _ hjb]
    exact List.getElem_replicate _ _
  refine ⟨?_, ?_, ?_, ?_, ?_, ?_, ?_, ?_⟩
  · exact List.nodup_nil
  · exact List.nodup_range _
  · intro j hj
    exact absurd hj (List.not_mem_nil j)
  · intro j hj
    rw [hplen]
    exact List.mem_range.mp hj
  · intro j hj
    rw [hplen] at hj
    rw [hgetD j hj]
    constructor
    · intro h
      exact absurd h (by decide)
    · intro h
      exact absurd h (List.not_mem_nil j)
  · intro j hj
    rw [hplen] at hj
    rw [hgetD j hj]
    constructor
    · intro _
      exact List.mem_range.mpr hj
    · intro _
      rfl
  · rfl
  · intro u
    cases u <;> rfl

theorem wf_ops : ∀ (ops : List PoolOp) (pl : ParticleList), pl.wellFormed →
    (applyPoolOps pl ops).wellFormed := by
  intro ops
  induction ops with
  | nil => intro pl h; exact h
  | cons op tl ih =>
    intro pl h
    unfold applyPoolOps
    rw [List.foldl_cons]
    have h1 : (applyPoolOp pl op).wellFormed := by
      cases op with
      | spawn t x y gi => exact wf_add pl t x y gi h
      | deactivate idx => exact wf_deactivate pl idx h
    exact ih (applyPoolOp pl op) h1

theorem deact_inactive_list (pl : ParticleList) (idx : Nat)
    (hact : (pl.particles.getD idx Particle.new).active = true) :
    (pl.make_particle_inactive idx).inactive_indices =
      pl.inactive_indices ++ [idx] := by
  unfold ParticleList.make_particle_inactive
  simp only [hact, Bool.not_true, Bool.false_eq_true, if_false]

theorem add_succeeds (pl : ParticleList) (t : ParticleType) (x y : ℚ) (gi : Nat)
    (hne : pl.inactive_indices ≠ []) :
    ((pl.add_active_particle t x y gi).1).isSome = true ∧
    ((pl.add_active_particle t x y gi).2).inactive_indices =
      pl.inactive_indices.dropLast := by
  unfold ParticleList.add_active_particle
  rw [if_neg (fun hh => hne (List.isEmpty_iff.mp hh))]
  exact ⟨rfl, rfl⟩

/-- Claim C4: a pool with an empty free list refuses a spawn (returns
`none`) and is left unchanged; after deactivating one active slot exactly
one further spawn succeeds (the next one fails); and after any sequence of
spawn/deactivate operations from the default pool the well-formedness
invariant holds: every slot is active XOR free and each per-type count
equals the number of active particles of that type. -/
theorem c4_pool_exhaustion :
    (∀ (pl : ParticleList) (t : ParticleType) (x y : ℚ) (gi : Nat),
      pl.inactive_indices = [] → pl.add_active_particle t x y gi = (none, pl)) ∧
    (∀ (pl : ParticleList) (idx : Nat) (t t2 : ParticleType) (x y x2 y2 : ℚ)
      (gi gi2 : Nat), pl.wellFormed → pl.inactive_indices = [] →
      idx ∈ pl.active_indices →
      ((pl.make_particle_inactive idx).add_active_particle t x y gi).1.isSome = true ∧
      (((pl.make_particle_inactive idx).add_active_particle t x y gi).2.add_active_particle
        t2 x2 y2 gi2).1 = none) ∧
    (∀ ops : List PoolOp, (applyPoolOps ParticleList.default ops).wellFormed) := by
  refine ⟨?_, ?_, ?_⟩
  · intro pl t x y gi h
    exact add_on_empty pl t x y gi h
  · intro pl idx t t2 x y x2 y2 gi gi2 hwf hemp hmem
    obtain ⟨hnodA, hnodI, hbndA, hbndI, hactIff, hinactIff, hclen, hcounts⟩ := hwf
    have hlt : idx < pl.particles.length := hbndA idx hmem
    have hact : (pl.particles.getD idx Particle.new).active = true :=
      (hactIff idx hlt).mpr hmem
    have hIn : (pl.make_particle_inactive idx).inactive_indices = [idx] := by
      rw [deact_inactive_list pl idx hact, hemp]
      rfl
    have hne1 : (pl.make_particle_inactive idx).inactive_indices ≠ [] := by
      rw [hIn]
      simp
    obtain ⟨hs1, hdrop⟩ := add_succeeds (pl.make_particle_inactive idx) t x y gi hne1
    refine ⟨hs1, ?_⟩
    have hempty2 : ((pl.make_particle_inactive idx).add_active_particle
        t x y gi).2.inactive_indices = [] := by
      rw [hdrop, hIn]
      rfl
    rw [add_on_empty _ t2 x2 y2 gi2 hempty2]
  · intro ops
    exact wf_ops ops ParticleList.default wf_default

/-- Witness for C4 at a concrete one-slot full pool and the empty
operation sequence. -/
theorem c4_pool_exhaustion_witness :
    (onePool.add_active_particle ParticleType.C4 1 2 3 = (none, onePool)) ∧
    (((onePool.make_particle_inactive 0).add_active_particle
      ParticleType.C4 1 2 3).1.isSome = true) ∧
    ((((onePool.make_particle_inactive 0).add_active_particle
      ParticleType.C4 1 2 3).2.add_active_particle ParticleType.Nitro 4 5 6).1 = none) ∧
    (applyPoolOps ParticleList.default []).wellFormed := by
  refine ⟨c4_pool_exhaustion.1 onePool ParticleType.C4 1 2 3 rfl, ?_, ?_, c4_pool_exhaustion.2.2 []⟩
  · exact (c4_pool_exhaustion.2.1 onePool 0 ParticleType.C4 ParticleType.Nitro 1 2 4 5 3 6
      (by decide) rfl (by decide)).1
  · exact (c4_pool_exhaustion.2.1 onePool 0 ParticleType.C4 ParticleType.Nitro 1 2 4 5 3 6
      (by decide) rfl (by decide)).2

set_option maxRecDepth 1000000 in
/-- Claim C2: on a 10x10 grid with sand at (5,0) and background elsewhere,
with `fall_into_void = false` and every probability draw succeeding, after
exactly 9 full simulation ticks the sand occupies (5,9) and every other
cell is background. -/
theorem c2_sand_lands_after_nine_ticks : (runTicks 9 sandDropGrid false allTrue).1 = sandDropTarget := by
  decide

set_option maxRecDepth 200000 in
/-- Counterexample to C3 as stated: with fire above oil under background
and the all-true oracle, the source's fire arm rises (leaving the oil),
while the claimed order (all ignitions before rise) would ignite the oil.
The resulting grids differ. -/
theorem c3_fire_priority_counterexample :
    (fireAction fireOilGrid 0 1 2 allTrue).1 ≠
      (runAttempts fireClaimOrder fireOilGrid 0 1 2 allTrue).1 := by
  decide

set_option maxRecDepth 200000 in
/-- Claim C10: a concrete input on which `do_gravity` with
`fall_adjacent = true` moves the sand purely sideways: with the cell below
and both diagonal cells blocked and the right same-row neighbour free, the
element relocates into that neighbour and the source cell becomes
background. -/
theorem c10_sideways_gravity :
    sideFallGrid.get_index (1 + sideFallGrid.width) ≠ Element.Background ∧
    sideFallGrid.get_index (1 + sideFallGrid.width - 1) ≠ Element.Background ∧
    sideFallGrid.get_index (1 + sideFallGrid.width + 1) ≠ Element.Background ∧
    sideFallGrid.get_index (1 + 1) = Element.Background ∧
    (do_gravity sideFallGrid 1 0 1 true ⟨95, 100⟩ false allTrue).1.elements =
      [Element.Sand, Element.Background, Element.Sand,
       Element.Sand, Element.Sand, Element.Sand] ∧
    (do_gravity sideFallGrid 1 0 1 true ⟨95, 100⟩ false allTrue).2.1 = true := by
  decide
